import Mathlib

/-!
Reconstruction of a call from its persisted JSON document.

A shallow embedding of `daemon/redis-json.c` (with the types of
`include/redis-json.h`) and the properties of the reconstruction that follow
from the code.

Conventions of the embedding:

* `GQueue*` of objects is a `List`; `g_queue_peek_nth` is `xs[n]?`; a `NULL`
  result of a builder is `none`.  A function that can dereference a `NULL`
  pointer has an `outcome`: the value it returns, or `crash`.
* Objects are immutable once built, except for the `other_tag` pointer of a
  tag, which `redis_call_match_tags` writes.  A pointer to a tag is modelled by
  the position of that tag in the call's tag queue (equal to its `unique_id`);
  all other shared references are modelled by value.  Reference counts
  (`obj_get`, `obj_put`) are not modelled.
* `unsigned` is 32 bits wide, `unsigned long` and `unsigned long long` are 64
  bits wide; a conversion of a `long long` to one of them reduces it modulo
  the width.
* A `JsonReader` positioned on a node is modelled by the node itself: every
  function of the source leaves the cursor of the reader it was given where it
  found it (each successful `json_reader_read_member` is paired with a
  `json_reader_end_member`, and a failed one has its error state cleared by the
  next `json_reader_end_member`).
-/

set_option autoImplicit false

namespace RedisJson

/-! ## The document tree -/

/-- A parsed JSON document: the `JsonNode` of json-glib.  Integer values are
`gint64`. -/
inductive JsonNode where
  | null
  | int (v : Int)
  | str (s : String)
  | array (elems : List JsonNode)
  | object (members : List (String × JsonNode))

/-- Number of members of an object node (0 for any other node). -/
def JsonNode.size : JsonNode → Nat
  | .object members => members.length
  | _ => 0

/-- The names of the members of an object node. -/
def JsonNode.keys : JsonNode → List String
  | .object members => members.map Prod.fst
  | _ => []

/-- Conversion of a `long long` to `unsigned` (32 bits). -/
def to_unsigned (v : Int) : Nat := (v % 4294967296).toNat

/-- Conversion of a `long long` to `unsigned long` (64 bits). -/
def to_ulong (v : Int) : Nat := (v % 18446744073709551616).toNat

/-- The element at position `n` of a queue, `NULL` (here `none`) when the queue
is shorter. -/
def g_queue_peek_nth {α : Type} (q : List α) (n : Nat) : Option α := q[n]?

/-- Modelled from the spec: `json_reader_read_member` followed by
`json_reader_get_value` (json-glib, the document-tree reader of spec §6,
"enter named member"): the member `name` of an object node, `none` when the
node is not an object or has no such member. -/
def json_reader_read_member (reader : JsonNode) (name : String) : Option JsonNode :=
  match reader with
  | .object members => (members.find? (fun m => m.1 == name)).map Prod.snd
  | _ => none

/-- Modelled from the spec: `json_reader_get_ll` of `json-helpers.h`, which is
not among the sources ("read a signed 64-bit value ... if absent (sentinel
negative)"): the integer held by member `key`, and -1 when the member is absent
or holds no integer. -/
def json_reader_get_ll (reader : JsonNode) (key : String) : Int :=
  match json_reader_read_member reader key with
  | some (.int v) => v
  | _ => -1

/-- Modelled from the spec: `json_reader_get_str` of `json-helpers.h`, which is
not among the sources ("a direct optional-string accessor that returns an
empty/absent marker when the field is missing"). -/
def json_reader_get_str (reader : JsonNode) (key : String) : Option String :=
  match json_reader_read_member reader key with
  | some (.str s) => some s
  | _ => none

/-- Modelled from the spec: `json_reader_get_node` of `json-helpers.h`, which
is not among the sources: the node of member `key`, `NULL` when absent. -/
def json_reader_get_node (reader : JsonNode) (key : String) : Option JsonNode :=
  json_reader_read_member reader key

/-- Modelled from the spec: `json_reader_is_array` (json-glib, "is this node an
array"). -/
def json_reader_is_array (reader : JsonNode) : Bool :=
  match reader with
  | .array _ => true
  | _ => false

/-- Modelled from the spec: `json_reader_count_elements` (json-glib, "count
elements of an array node"): -1 on a node that is not an array. -/
def json_reader_count_elements (reader : JsonNode) : Int :=
  match reader with
  | .array elems => elems.length
  | _ => -1

/-- Modelled from the spec: `json_reader_get_str_element` of `json-helpers.h`,
which is not among the sources ("get element at index"): the string at position
`idx` of an array node, `NULL` when there is none. -/
def json_reader_get_str_element (reader : JsonNode) (idx : Nat) : Option String :=
  match reader with
  | .array elems =>
    match elems[idx]? with
    | some (.str s) => some s
    | _ => none
  | _ => none

/-- Modelled from the spec: `json_reader_get_ll_element` of `json-helpers.h`,
which is not among the sources: the integer at position `idx` of an array node,
-1 when there is none. -/
def json_reader_get_ll_element (reader : JsonNode) (idx : Nat) : Int :=
  match reader with
  | .array elems =>
    match elems[idx]? with
    | some (.int v) => v
    | _ => -1
  | _ => -1

/-! ## Strings -/

/-- Splitting a character sequence at the first `sep`. -/
def str_token_chars (sep : Char) : List Char → Option (List Char × List Char)
  | [] => none
  | c :: cs =>
    if c = sep then some ([], cs)
    else
      match str_token_chars sep cs with
      | none => none
      | some (tok, rest) => some (c :: tok, rest)

/-- Modelled from the spec: `str_token` of `str.h`, which is not among the
sources ("split on the first `/` ... missing separator aborts"): on success the
token before the first `sep` and the remainder after it, which replaces the
string the caller passed; `none` when `sep` does not occur (the nonzero
return). -/
def str_token (ori_and_remainder : String) (sep : Char) : Option (String × String) :=
  match str_token_chars sep ori_and_remainder.data with
  | none => none
  | some (tok, rest) => some (String.mk tok, String.mk rest)

/-- Value of a sequence of decimal digits. -/
def decimal_value (cs : List Char) : Nat :=
  cs.foldl (fun acc c => acc * 10 + (c.toNat - 48)) 0

/-- Modelled from the spec: `str_to_ui` of `str.h`, which is not among the
sources ("the left part parses as the payload-type number"): the value of the
leading decimal digits of `s` as an `unsigned`, and `dflt` when `s` does not
start with a digit.  The result has no failure value. -/
def str_to_ui (s : String) (dflt : Int) : Nat :=
  let digits := s.data.takeWhile Char.isDigit
  if digits.isEmpty then to_unsigned dflt
  else decimal_value digits % 4294967296

/-- Modelled from the spec: `str_sprintf` (and `snprintf`) with a format
`<name>-%u`: the name, a dash and the decimal digits of the index.  The format
`other_tags-%d` prints the same digits for an index below 2^31.  The index is
an `unsigned` in the source and a natural number here; the two agree below
2^32, which no probe exceeds on a document that fits in memory. -/
def str_sprintf (name : String) (idx : Nat) : String :=
  name ++ "-" ++ toString idx

/-! ## The object model (`redis-json.h`) -/

structure redis_call_media_stream_fd_t where
  unique_id : Nat
  stream_unique_id : Nat
  pref_family : Option String
  localport : Nat
  logical_intf : Option String
  logical_intf_uid : Nat
  deriving DecidableEq, Repr

structure redis_call_media_stream_t where
  unique_id : Nat
  media_unique_id : Nat
  selected_sfd : Nat
  rtp_sink : Int
  rtcp_sink : Int
  rtcp_sibling : Int
  last_packet : Nat
  ps_flags : Nat
  component : Nat
  endpoint : Option String
  advertised_endpoint : Option String
  stats_packets : Nat
  stats_bytes : Nat
  stats_errors : Nat
  fds : List redis_call_media_stream_fd_t
  deriving DecidableEq, Repr

/-- The payload type object used by `redis-json.c` (`payload_type`,
`codec_str`). -/
structure redis_call_rtp_payload_type_t where
  payload_type : Nat
  codec_str : String
  deriving DecidableEq, Repr

/-- A tag; `other_tag` is the position of the partner in the call's tag
queue. -/
structure redis_call_media_tag_t where
  unique_id : Nat
  created : Nat
  active : Bool
  deleted : Bool
  block_dtmf : Bool
  block_media : Bool
  tag : Option String
  viabranch : Option String
  label : Option String
  other_tag : Option Nat
  deriving DecidableEq, Repr

structure redis_call_media_t where
  index : Nat
  unique_id : Nat
  type : Option String
  protocol : Option String
  desired_family : Option String
  logical_intf : Option String
  ptime : Nat
  media_flags : Nat
  rtpe_addr : Option String
  tag : Option redis_call_media_tag_t
  streams : List redis_call_media_stream_t
  codec_prefs_recv : List redis_call_rtp_payload_type_t
  codec_prefs_send : List redis_call_rtp_payload_type_t
  deriving DecidableEq, Repr

/-- What the `GQueue *media` of a call points to: nothing (`NULL`), a queue of
media, or a queue that `g_queue_free_full` has already released (a dangling
pointer, which is not `NULL`). -/
inductive media_queue_ptr where
  | null
  | live (q : List redis_call_media_t)
  | released
  deriving DecidableEq, Repr

structure redis_call_t where
  call_id : String
  created : Nat
  last_signal : Nat
  tos : Nat
  deleted : Bool
  ml_deleted : Bool
  created_from : Option String
  created_from_addr : Option String
  redis_hosted_db : Nat
  recording_metadata : Option String
  block_dtmf : Bool
  block_media : Bool
  media : media_queue_ptr
  deriving DecidableEq, Repr

/-! ## Field update policies (the `JSON_UPDATE_*` definitions) -/

/-- `JSON_UPDATE_NUM_FIELD_IF_SET` on an `unsigned` field. -/
def JSON_UPDATE_NUM_FIELD_IF_SET (reader : JsonNode) (key : String) (field : Nat) : Nat :=
  let llval := json_reader_get_ll reader key
  if llval ≥ 0 then to_unsigned llval else field

/-- `JSON_UPDATE_NUM_FIELD_IF_SET` on an `unsigned long` field. -/
def JSON_UPDATE_NUM_FIELD_IF_SET_ulong (reader : JsonNode) (key : String) (field : Nat) : Nat :=
  let llval := json_reader_get_ll reader key
  if llval ≥ 0 then to_ulong llval else field

/-- `JSON_UPDATE_BOOL_FIELD_IF_SET`. -/
def JSON_UPDATE_BOOL_FIELD_IF_SET (reader : JsonNode) (key : String) (field : Bool) : Bool :=
  let llval := json_reader_get_ll reader key
  if llval ≥ 0 then (if llval ≠ 0 then true else false) else field

/-- `JSON_UPDATE_SIGNED_NUM_FIELD_IF_SET`, for fields that support -1 (for "not
set") but are stored in JSON as unsigned. -/
def JSON_UPDATE_SIGNED_NUM_FIELD_IF_SET (reader : JsonNode) (key : String) (field : Int) : Int :=
  let llval := json_reader_get_ll reader key
  if llval ≥ 0 then (if llval < 1000 then llval else -1) else field

/-- `JSON_UPDATE_NUM_FIELD_IF_SET_OR_FAIL` on an `unsigned` field: `none` is the
jump to `fail`. -/
def JSON_UPDATE_NUM_FIELD_IF_SET_OR_FAIL (reader : JsonNode) (key : String) : Option Nat :=
  let llval := json_reader_get_ll reader key
  if llval ≥ 0 then some (to_unsigned llval) else none

/-- `JSON_UPDATE_NUM_FIELD_IF_SET_OR_FAIL` on a 64-bit unsigned field. -/
def JSON_UPDATE_NUM_FIELD_IF_SET_OR_FAIL_ulong (reader : JsonNode) (key : String) : Option Nat :=
  let llval := json_reader_get_ll reader key
  if llval ≥ 0 then some (to_ulong llval) else none

/-! ## Functions that may not return -/

/-- What a call of a function of the source does: it returns a value (for a
pointer result, `none` is `NULL`), or it does not return at all because it
dereferences a `NULL` pointer. -/
inductive outcome (α : Type) where
  | ret (a : α)
  | crash
  deriving DecidableEq, Repr

/-- The object a call returns, if it returns one. -/
def outcome.value {α : Type} : outcome (Option α) → Option α
  | .ret x => x
  | .crash => none

/-! ## Payload tables -/

/-- `redis_call_rtp_payload_type_create`; `payload_string` is the string as
`str_token` left it. -/
def redis_call_rtp_payload_type_create (payload_type : Nat) (payload_string : String) :
    redis_call_rtp_payload_type_t :=
  { payload_type := payload_type, codec_str := payload_string }

/-- The loop of `redis_call_media_read_payloads`, with `remaining` iterations
to go, so that `idx = payload_count - remaining`.  The source passes the result
of `json_reader_get_str_element` to `str_token` without a test: on a `NULL`
element `str_token` dereferences it and the call does not return (`crash`).  A
string without separator is the jump to `fail` (`ret none`). -/
def redis_call_media_read_payloads_loop (reader : JsonNode) (payload_count : Nat) :
    Nat → List redis_call_rtp_payload_type_t →
      outcome (Option (List redis_call_rtp_payload_type_t))
  | 0, out => .ret (some out)
  | remaining + 1, out =>
    let idx := payload_count - (remaining + 1)
    match json_reader_get_str_element reader idx with
    | none => .crash
    | some payload_str =>
      match str_token payload_str '/' with
      | none => .ret none
      | some (ptype, payload_str) =>
        let pt := str_to_ui ptype 0
        let payload := redis_call_rtp_payload_type_create pt payload_str
        redis_call_media_read_payloads_loop reader payload_count remaining (out ++ [payload])

/-- `redis_call_media_read_payloads`.  On a node that is not an array
`payload_count` is `(unsigned) -1` and the first element read is `NULL`. -/
def redis_call_media_read_payloads (payloadTypes : JsonNode) :
    outcome (Option (List redis_call_rtp_payload_type_t)) :=
  let payload_count := to_unsigned (json_reader_count_elements payloadTypes)
  redis_call_media_read_payloads_loop payloadTypes payload_count payload_count []

/-- A payload document holding the given strings. -/
def payload_list (strs : List String) : JsonNode :=
  .array (strs.map JsonNode.str)

/-! ## Socket descriptors and streams -/

/-- `redis_call_media_stream_fd_create`. -/
def redis_call_media_stream_fd_create (unique_id : Nat) (json : JsonNode) :
    Option redis_call_media_stream_fd_t :=
  match JSON_UPDATE_NUM_FIELD_IF_SET_OR_FAIL json "stream" with
  | none => none
  | some stream_unique_id =>
    some { unique_id := unique_id
           stream_unique_id := stream_unique_id
           pref_family := json_reader_get_str json "pref_family"
           localport := JSON_UPDATE_NUM_FIELD_IF_SET json "localport" 0
           logical_intf := json_reader_get_str json "logical_intf"
           logical_intf_uid := JSON_UPDATE_NUM_FIELD_IF_SET json "local_intf_uid" 0 }

/-- The "grab my fds" loop of `redis_call_media_stream_create`, with
`remaining` iterations to go (`idx = length sfds - remaining`). -/
def redis_call_media_stream_create_fds (sfds : List redis_call_media_stream_fd_t)
    (unique_id : Nat) :
    Nat → List redis_call_media_stream_fd_t → List redis_call_media_stream_fd_t
  | 0, fds => fds
  | remaining + 1, fds =>
    let idx := sfds.length - (remaining + 1)
    match g_queue_peek_nth sfds idx with
    | some streamfdref =>
      if streamfdref.stream_unique_id = unique_id then
        redis_call_media_stream_create_fds sfds unique_id remaining (fds ++ [streamfdref])
      else redis_call_media_stream_create_fds sfds unique_id remaining fds
    | none => redis_call_media_stream_create_fds sfds unique_id remaining fds

/-- `redis_call_media_stream_create`. -/
def redis_call_media_stream_create (unique_id : Nat) (json : JsonNode)
    (sfds : List redis_call_media_stream_fd_t) : Option redis_call_media_stream_t :=
  match JSON_UPDATE_NUM_FIELD_IF_SET_OR_FAIL json "media" with
  | none => none
  | some media_unique_id =>
    some { unique_id := unique_id
           media_unique_id := media_unique_id
           selected_sfd := JSON_UPDATE_NUM_FIELD_IF_SET json "sfd" 0
           rtp_sink := JSON_UPDATE_SIGNED_NUM_FIELD_IF_SET json "rtp_sink" 0
           rtcp_sink := JSON_UPDATE_SIGNED_NUM_FIELD_IF_SET json "rtcp_sink" 0
           rtcp_sibling := JSON_UPDATE_SIGNED_NUM_FIELD_IF_SET json "rtcp_sibling" 0
           last_packet := JSON_UPDATE_NUM_FIELD_IF_SET json "last_packet" 0
           ps_flags := JSON_UPDATE_NUM_FIELD_IF_SET json "ps_flags" 0
           component := JSON_UPDATE_NUM_FIELD_IF_SET json "component" 0
           endpoint := json_reader_get_str json "endpoint"
           advertised_endpoint := json_reader_get_str json "advertised_endpoint"
           stats_packets := JSON_UPDATE_NUM_FIELD_IF_SET json "stats-packets" 0
           stats_bytes := JSON_UPDATE_NUM_FIELD_IF_SET json "stats-bytes" 0
           stats_errors := JSON_UPDATE_NUM_FIELD_IF_SET json "stats-errors" 0
           fds := redis_call_media_stream_create_fds sfds unique_id sfds.length [] }

/-! ## Tags -/

/-- `redis_call_media_tag_create`. -/
def redis_call_media_tag_create (unique_id : Nat) (json : JsonNode) :
    Option redis_call_media_tag_t :=
  match JSON_UPDATE_NUM_FIELD_IF_SET_OR_FAIL_ulong json "created" with
  | none => none
  | some created =>
    some { unique_id := unique_id
           created := created
           active := JSON_UPDATE_BOOL_FIELD_IF_SET json "active" false
           deleted := JSON_UPDATE_BOOL_FIELD_IF_SET json "deleted" false
           block_dtmf := JSON_UPDATE_BOOL_FIELD_IF_SET json "block_dtmf" false
           block_media := JSON_UPDATE_BOOL_FIELD_IF_SET json "block_media" false
           tag := json_reader_get_str json "tag"
           viabranch := json_reader_get_str json "viabranch"
           label := json_reader_get_str json "label"
           other_tag := none }

/-- The assignment `p->other_tag = q` for the tags at positions `p` and `q` of
the tag queue. -/
def set_other_tag (call_tags : List redis_call_media_tag_t) (p q : Nat) :
    List redis_call_media_tag_t :=
  match call_tags[p]? with
  | some t => call_tags.set p { t with other_tag := some q }
  | none => call_tags

/-- The loop of `redis_call_match_tags` over the elements of the list, with
`remaining` iterations to go; `tag` is the position of the tag the list belongs
to.  `none` is the jump to `fail`. -/
def redis_call_match_tags_loop (tag : Nat) (reader : JsonNode) (num_others : Nat) :
    Nat → List redis_call_media_tag_t → Option (List redis_call_media_tag_t)
  | 0, call_tags => some call_tags
  | remaining + 1, call_tags =>
    let other_idx := num_others - (remaining + 1)
    let other_tagid := to_unsigned (json_reader_get_ll_element reader other_idx)
    match g_queue_peek_nth call_tags other_tagid with
    | none => none
    | some _ =>
      let call_tags := set_other_tag call_tags tag other_tagid
      let call_tags := set_other_tag call_tags other_tagid tag
      redis_call_match_tags_loop tag reader num_others remaining call_tags

/-- `redis_call_match_tags`: status 0 is `none`, status 1 is the tag queue
after the assignments.  The tests `num_others < 0` and `other_tagid < 0` of the
source compare `unsigned` values and never hold. -/
def redis_call_match_tags (tag : Nat) (call_tags : List redis_call_media_tag_t)
    (json : JsonNode) : Option (List redis_call_media_tag_t) :=
  if json_reader_is_array json then
    let num_others := to_unsigned (json_reader_count_elements json)
    redis_call_match_tags_loop tag json num_others num_others call_tags
  else none

/-- The first loop of `redis_call_read_tags`: probes `tag-<tag_idx>` until the
first absent one and returns the final `tag_idx` with the queue.  The loop of
the source has no bound; `fuel` bounds the iterations here, and the number of
members of the document plus one is always enough
(`seq_probe_terminates`). -/
def redis_call_read_tags_probe (reader : JsonNode) :
    Nat → Nat → List redis_call_media_tag_t → Option (Nat × List redis_call_media_tag_t)
  | 0, _, _ => none
  | fuel + 1, tag_idx, call_tags =>
    match json_reader_read_member reader (str_sprintf "tag" tag_idx) with
    | none => some (tag_idx, call_tags)
    | some v =>
      match redis_call_media_tag_create tag_idx v with
      | none => none
      | some tag => redis_call_read_tags_probe reader fuel (tag_idx + 1) (call_tags ++ [tag])

/-- The second loop of `redis_call_read_tags`, over `other_tags-<idx>` for
`idx < tag_idx`, with `remaining` iterations to go. -/
def redis_call_read_tags_others (reader : JsonNode) (tag_idx : Nat) :
    Nat → List redis_call_media_tag_t → Option (List redis_call_media_tag_t)
  | 0, call_tags => some call_tags
  | remaining + 1, call_tags =>
    let other_tags_idx := tag_idx - (remaining + 1)
    match json_reader_read_member reader (str_sprintf "other_tags" other_tags_idx) with
    | some v =>
      match g_queue_peek_nth call_tags other_tags_idx with
      | none => none
      | some _ =>
        match redis_call_match_tags other_tags_idx call_tags v with
        | none => none
        | some call_tags => redis_call_read_tags_others reader tag_idx remaining call_tags
    | none => redis_call_read_tags_others reader tag_idx remaining call_tags

/-- `redis_call_read_tags`. -/
def redis_call_read_tags (reader : JsonNode) : Option (List redis_call_media_tag_t) :=
  match redis_call_read_tags_probe reader (reader.size + 1) 0 [] with
  | none => none
  | some (tag_idx, call_tags) => redis_call_read_tags_others reader tag_idx tag_idx call_tags

/-! ## Flat lists of descriptors and streams -/

/-- The loop of `redis_call_read_stream_fds` (see `redis_call_read_tags_probe`
for `fuel`). -/
def redis_call_read_stream_fds_probe (reader : JsonNode) :
    Nat → Nat → List redis_call_media_stream_fd_t → Option (List redis_call_media_stream_fd_t)
  | 0, _, _ => none
  | fuel + 1, sfd_idx, call_sfds =>
    match json_reader_read_member reader (str_sprintf "sfd" sfd_idx) with
    | none => some call_sfds
    | some v =>
      match redis_call_media_stream_fd_create sfd_idx v with
      | none => none
      | some sfd => redis_call_read_stream_fds_probe reader fuel (sfd_idx + 1) (call_sfds ++ [sfd])

/-- `redis_call_read_stream_fds`. -/
def redis_call_read_stream_fds (reader : JsonNode) :
    Option (List redis_call_media_stream_fd_t) :=
  redis_call_read_stream_fds_probe reader (reader.size + 1) 0 []

/-- The loop of `redis_call_read_streams`. -/
def redis_call_read_streams_probe (reader : JsonNode)
    (call_sfds : List redis_call_media_stream_fd_t) :
    Nat → Nat → List redis_call_media_stream_t → Option (List redis_call_media_stream_t)
  | 0, _, _ => none
  | fuel + 1, stream_idx, call_streams =>
    match json_reader_read_member reader (str_sprintf "stream" stream_idx) with
    | none => some call_streams
    | some v =>
      match redis_call_media_stream_create stream_idx v call_sfds with
      | none => none
      | some stream =>
        redis_call_read_streams_probe reader call_sfds fuel (stream_idx + 1)
          (call_streams ++ [stream])

/-- `redis_call_read_streams`. -/
def redis_call_read_streams (reader : JsonNode) : Option (List redis_call_media_stream_t) :=
  match redis_call_read_stream_fds reader with
  | none => none
  | some call_sfds => redis_call_read_streams_probe reader call_sfds (reader.size + 1) 0 []

/-! ## Media -/

/-- The "grab my streams" loop of `redis_call_media_create`. -/
def redis_call_media_create_streams (streams : List redis_call_media_stream_t)
    (unique_id : Nat) :
    Nat → List redis_call_media_stream_t → List redis_call_media_stream_t
  | 0, out => out
  | remaining + 1, out =>
    let idx := streams.length - (remaining + 1)
    match g_queue_peek_nth streams idx with
    | some streamref =>
      if streamref.media_unique_id = unique_id then
        redis_call_media_create_streams streams unique_id remaining (out ++ [streamref])
      else redis_call_media_create_streams streams unique_id remaining out
    | none => redis_call_media_create_streams streams unique_id remaining out

/-- The tag lookup of `redis_call_media_create`: `none` is the jump to `fail`,
`some none` a media without tag. -/
def redis_call_media_create_tag (json : JsonNode) (tags : List redis_call_media_tag_t) :
    Option (Option redis_call_media_tag_t) :=
  let llval := json_reader_get_ll json "tag"
  if llval ≥ 0 then
    match g_queue_peek_nth tags (to_unsigned llval) with
    | none => none
    | some tagref => some (some tagref)
  else some none

/-- `redis_call_media_create`.  `streamIds` and `endpointMaps` are not read.
The tag is looked up first, then the receive table is read, then the send
table; a call of `redis_call_media_read_payloads` that does not return ends
this call too. -/
def redis_call_media_create (unique_id : Nat) (json : JsonNode)
    (tags : List redis_call_media_tag_t) (streams : List redis_call_media_stream_t)
    (_streamIds _endpointMaps payloadTypesRecv payloadTypesSend : JsonNode) :
    outcome (Option redis_call_media_t) :=
  match redis_call_media_create_tag json tags with
  | none => .ret none
  | some tag =>
    match redis_call_media_read_payloads payloadTypesRecv with
    | .crash => .crash
    | .ret none => .ret none
    | .ret (some codec_prefs_recv) =>
      match redis_call_media_read_payloads payloadTypesSend with
      | .crash => .crash
      | .ret none => .ret none
      | .ret (some codec_prefs_send) =>
        .ret (some { index := JSON_UPDATE_NUM_FIELD_IF_SET json "index" 0
                     unique_id := unique_id
                     type := json_reader_get_str json "type"
                     protocol := json_reader_get_str json "protocol"
                     desired_family := json_reader_get_str json "desired_family"
                     logical_intf := json_reader_get_str json "logical_intf"
                     ptime := JSON_UPDATE_NUM_FIELD_IF_SET json "ptime" 0
                     media_flags := JSON_UPDATE_NUM_FIELD_IF_SET json "media_flags" 0
                     rtpe_addr := json_reader_get_str json "rtpe_addr"
                     tag := tag
                     streams := redis_call_media_create_streams streams unique_id streams.length []
                     codec_prefs_recv := codec_prefs_recv
                     codec_prefs_send := codec_prefs_send })

/-! ## The call -/

/-- `redis_call_create_from_metadata`. -/
def redis_call_create_from_metadata (callid : String) (json : JsonNode) : Option redis_call_t :=
  match JSON_UPDATE_NUM_FIELD_IF_SET_OR_FAIL_ulong json "created" with
  | none => none
  | some created =>
    some { call_id := callid
           created := created
           last_signal := JSON_UPDATE_NUM_FIELD_IF_SET_ulong json "last_signal" 0
           tos := 0
           deleted := JSON_UPDATE_BOOL_FIELD_IF_SET json "deleted" false
           ml_deleted := JSON_UPDATE_BOOL_FIELD_IF_SET json "ml_deleted" false
           created_from := json_reader_get_str json "created_from"
           created_from_addr := json_reader_get_str json "created_from_addr"
           redis_hosted_db := JSON_UPDATE_NUM_FIELD_IF_SET json "redis_hosted_db" 0
           recording_metadata := none
           block_dtmf := JSON_UPDATE_BOOL_FIELD_IF_SET json "block_dtmf" false
           block_media := JSON_UPDATE_BOOL_FIELD_IF_SET json "block_media" false
           media := .null }

/-- The loop of `redis_call_read_media` (see `redis_call_read_tags_probe` for
`fuel`).  `ret none` is the jump to `fail`, taken when a companion document is
missing or the media cannot be built; `crash` is a call of
`redis_call_media_create` that does not return. -/
def redis_call_read_media_probe (reader : JsonNode) (call_tags : List redis_call_media_tag_t)
    (call_streams : List redis_call_media_stream_t) :
    Nat → Nat → List redis_call_media_t → outcome (Option (List redis_call_media_t))
  | 0, _, _ => .ret none
  | fuel + 1, media_idx, call_media =>
    match json_reader_get_node reader (str_sprintf "media" media_idx) with
    | none => .ret (some call_media)
    | some mediaNode =>
      match json_reader_get_node reader (str_sprintf "streams" media_idx),
            json_reader_get_node reader (str_sprintf "maps" media_idx),
            json_reader_get_node reader (str_sprintf "payload_types" media_idx),
            json_reader_get_node reader (str_sprintf "payload_types_send" media_idx) with
      | some streamIdsNode, some endpointMapsNode, some payloadTypesRecvNode,
        some payloadTypesSendNode =>
        match redis_call_media_create media_idx mediaNode call_tags call_streams streamIdsNode
            endpointMapsNode payloadTypesRecvNode payloadTypesSendNode with
        | .crash => .crash
        | .ret none => .ret none
        | .ret (some media) =>
          redis_call_read_media_probe reader call_tags call_streams fuel (media_idx + 1)
            (call_media ++ [media])
      | _, _, _, _ => .ret none

/-- `redis_call_read_media`, with the pointer it returns.  When the tags or the
streams cannot be read, `call_media` is still `NULL` at `fail`.  When the loop
jumps to `fail`, the source releases the queue with `g_queue_free_full` and
then returns `call_media` without resetting it (unlike `redis_call_read_tags`,
`redis_call_read_stream_fds` and `redis_call_read_streams`, which set their
queue to `NULL` there): the result is the pointer to the released queue. -/
def redis_call_read_media (reader : JsonNode) : outcome media_queue_ptr :=
  match redis_call_read_tags reader with
  | none => .ret .null
  | some call_tags =>
    match redis_call_read_streams reader with
    | none => .ret .null
    | some call_streams =>
      match redis_call_read_media_probe reader call_tags call_streams (reader.size + 1) 0 [] with
      | .crash => .crash
      | .ret none => .ret .released
      | .ret (some call_media) => .ret (.live call_media)

/-- `redis_call_create`: the call it returns, or the `err` it logs when it
returns `NULL`.  The test `!(callref->media = redis_call_read_media(...))` is a
test for `NULL` only. -/
def redis_call_create (callid : String) (json : JsonNode) :
    outcome (Except String redis_call_t) :=
  match json_reader_read_member json "json" with
  | none => .ret (.error "Could not find call data")
  | some v =>
    match redis_call_create_from_metadata callid v with
    | none => .ret (.error "Failed to read call data")
    | some callref =>
      match redis_call_read_media json with
      | .crash => .crash
      | .ret .null => .ret (.error "Failed to read call media")
      | .ret media => .ret (.ok { callref with media := media })

/-- The inner loop of `redis_call_get_streams`, over the streams of one
media. -/
def redis_call_get_streams_inner (media : redis_call_media_t) :
    Nat → List redis_call_media_stream_t → List redis_call_media_stream_t
  | 0, streams => streams
  | remaining + 1, streams =>
    let sidx := media.streams.length - (remaining + 1)
    match g_queue_peek_nth media.streams sidx with
    | some s => redis_call_get_streams_inner media remaining (streams ++ [s])
    | none => redis_call_get_streams_inner media remaining streams

/-- The outer loop of `redis_call_get_streams`, over the media of the call. -/
def redis_call_get_streams_outer (call_media : List redis_call_media_t) :
    Nat → List redis_call_media_stream_t → List redis_call_media_stream_t
  | 0, streams => streams
  | remaining + 1, streams =>
    let midx := call_media.length - (remaining + 1)
    match g_queue_peek_nth call_media midx with
    | some media =>
      redis_call_get_streams_outer call_media remaining
        (redis_call_get_streams_inner media media.streams.length streams)
    | none => redis_call_get_streams_outer call_media remaining streams

/-- `redis_call_get_streams`.  On a `NULL` media queue `g_queue_get_length`
is 0 and the result is empty; on a released queue the source reads released
memory, and no result is defined (`none`). -/
def redis_call_get_streams (callref : redis_call_t) : Option (List redis_call_media_stream_t) :=
  match callref.media with
  | .live call_media => some (redis_call_get_streams_outer call_media call_media.length [])
  | .null => some []
  | .released => none

/-! ## Auxiliary definitions for the proofs -/

/-- The sequential probe shared by the four reading loops: members
`key idx`, `key (idx+1)`, ... are read until the first absent one; each present
one is built with `create`, whose failure fails the whole list. -/
def seq_probe {α : Type} (reader : JsonNode) (key : Nat → String)
    (create : Nat → JsonNode → Option α) : Nat → Nat → List α → Option (List α)
  | 0, _, _ => none
  | fuel + 1, idx, acc =>
    match json_reader_read_member reader (key idx) with
    | none => some acc
    | some v =>
      match create idx v with
      | none => none
      | some x => seq_probe reader key create fuel (idx + 1) (acc ++ [x])

/-- The media `redis_call_read_media` obtains from a present `media-<idx>`,
if it obtains one: the check of the four companion documents, then
`redis_call_media_create`. -/
def media_entry (reader : JsonNode) (call_tags : List redis_call_media_tag_t)
    (call_streams : List redis_call_media_stream_t) (media_idx : Nat) (mediaNode : JsonNode) :
    Option redis_call_media_t :=
  match json_reader_get_node reader (str_sprintf "streams" media_idx),
        json_reader_get_node reader (str_sprintf "maps" media_idx),
        json_reader_get_node reader (str_sprintf "payload_types" media_idx),
        json_reader_get_node reader (str_sprintf "payload_types_send" media_idx) with
  | some streamIdsNode, some endpointMapsNode, some payloadTypesRecvNode,
    some payloadTypesSendNode =>
    (redis_call_media_create media_idx mediaNode call_tags call_streams streamIdsNode
      endpointMapsNode payloadTypesRecvNode payloadTypesSendNode).value
  | _, _, _, _ => none

/-- The number of elements `redis_call_match_tags` reads from a list
(`num_others`). -/
def num_others (json : JsonNode) : Nat :=
  to_unsigned (json_reader_count_elements json)

/-- The tag index `redis_call_match_tags` reads at position `other_idx`
(`other_tagid`). -/
def other_tagid (json : JsonNode) (other_idx : Nat) : Nat :=
  to_unsigned (json_reader_get_ll_element json other_idx)

/-- The `unique_id`s of a tag queue. -/
def tag_ids (call_tags : List redis_call_media_tag_t) : List Nat :=
  call_tags.map (fun t => t.unique_id)

/-- The partner, if any, of the tag at position `p` of a tag queue. -/
def other_tag_of (call_tags : List redis_call_media_tag_t) (p : Nat) : Option Nat :=
  match call_tags[p]? with
  | some t => t.other_tag
  | none => none

/-- An object node with the given integer fields. -/
def int_fields (fs : List (String × Int)) : JsonNode :=
  .object (fs.map (fun f => (f.1, JsonNode.int f.2)))

/-- What one iteration of the loop of `redis_call_media_read_payloads` makes
of one element. -/
def payload_entry (payload_str : String) : Option redis_call_rtp_payload_type_t :=
  match str_token payload_str '/' with
  | none => none
  | some (ptype, rest) => some (redis_call_rtp_payload_type_create (str_to_ui ptype 0) rest)

/-- The entries of all elements, or nothing when one of them has none. -/
def payload_entries : List String → Option (List redis_call_rtp_payload_type_t)
  | [] => some []
  | s :: rest =>
    match payload_entry s with
    | none => none
    | some e =>
      match payload_entries rest with
      | none => none
      | some es => some (e :: es)

/-- The strings `<n>/<name>` for the given numbers and names. -/
def payload_strings (items : List (Nat × String)) : List String :=
  items.map (fun it => toString it.1 ++ "/" ++ it.2)

/-- The scan of the partner lists in the words of the spec: for each tag index
of `idxs` in turn, the list `other_tags-<i>` of the document, or the empty list
when the document has none, is applied to the tag queue; a list that cannot be
applied fails the scan. -/
def other_tags_scan (doc : JsonNode) :
    List Nat → List redis_call_media_tag_t → Option (List redis_call_media_tag_t)
  | [], call_tags => some call_tags
  | i :: idxs, call_tags =>
    match redis_call_match_tags i call_tags
        ((json_reader_read_member doc (str_sprintf "other_tags" i)).getD (.array [])) with
    | none => none
    | some call_tags => other_tags_scan doc idxs call_tags

/-! ## Sample documents -/

/-- A document with `tag-0`, `tag-1` and `tag-3` (a gap at 2), where
`other_tags-0` lists index 1. -/
def doc_tags_gap : JsonNode := .object [
  ("tag-0", int_fields [("created", 10)]),
  ("tag-1", int_fields [("created", 11)]),
  ("tag-3", int_fields [("created", 13)]),
  ("other_tags-0", .array [.int 1])]

/-- A document with one well-formed tag whose partner list names a tag that
does not exist. -/
def doc_dangling_partner : JsonNode := .object [
  ("tag-0", int_fields [("created", 10)]),
  ("other_tags-0", .array [.int 5])]

/-- The root section of the sample documents. -/
def sample_json : String × JsonNode := ("json", int_fields [("created", 1700000000)])

/-- A document with three descriptors, three streams and two media: the
descriptors 0 and 2 name stream 2, descriptor 1 names stream 0; the streams 0
and 1 name media 0, stream 2 names media 1. -/
def doc_two_media : JsonNode := .object [
  sample_json,
  ("sfd-0", int_fields [("stream", 2)]),
  ("sfd-1", int_fields [("stream", 0)]),
  ("sfd-2", int_fields [("stream", 2)]),
  ("stream-0", int_fields [("media", 0)]),
  ("stream-1", int_fields [("media", 0)]),
  ("stream-2", int_fields [("media", 1)]),
  ("media-0", int_fields [("index", 1)]),
  ("streams-0", .array [.int 0, .int 1]),
  ("maps-0", .array []),
  ("payload_types-0", payload_list ["0/PCMU"]),
  ("payload_types_send-0", payload_list ["0/PCMU"]),
  ("media-1", int_fields [("index", 2)]),
  ("streams-1", .array [.int 2]),
  ("maps-1", .array []),
  ("payload_types-1", payload_list ["8/PCMA"]),
  ("payload_types_send-1", payload_list ["8/PCMA"])]

/-- A document with well-formed `media-0` and `media-1`, and a `media-2` whose
companion `maps-2` is missing. -/
def doc_missing_maps : JsonNode := .object [
  sample_json,
  ("media-0", int_fields [("index", 1)]),
  ("streams-0", .array []),
  ("maps-0", .array []),
  ("payload_types-0", payload_list ["0/PCMU"]),
  ("payload_types_send-0", payload_list ["0/PCMU"]),
  ("media-1", int_fields [("index", 2)]),
  ("streams-1", .array []),
  ("maps-1", .array []),
  ("payload_types-1", payload_list ["8/PCMA"]),
  ("payload_types_send-1", payload_list ["8/PCMA"]),
  ("media-2", int_fields [("index", 3)]),
  ("streams-2", .array []),
  ("payload_types-2", payload_list ["8/PCMA"]),
  ("payload_types_send-2", payload_list ["8/PCMA"])]

/-- A document with one media whose `payload_types-0` holds the number 5 and
whose `payload_types_send-0` holds a string without separator. -/
def doc_number_payload : JsonNode := .object [
  sample_json,
  ("media-0", int_fields [("index", 1)]),
  ("streams-0", .array []),
  ("maps-0", .array []),
  ("payload_types-0", .array [.int 5]),
  ("payload_types_send-0", payload_list ["PCMU"])]

/-- A document with one stream that names media 3, and no media. -/
def doc_orphan_stream : JsonNode := .object [
  sample_json,
  ("stream-0", int_fields [("media", 3)])]

/-- A document with one media, one stream, and a descriptor that declares
stream 4294967296. -/
def doc_wide_stream_id : JsonNode := .object [
  sample_json,
  ("sfd-0", int_fields [("stream", 4294967296)]),
  ("stream-0", int_fields [("media", 0)]),
  ("media-0", int_fields [("index", 1)]),
  ("streams-0", .array [.int 0]),
  ("maps-0", .array []),
  ("payload_types-0", payload_list ["0/PCMU"]),
  ("payload_types_send-0", payload_list ["0/PCMU"])]

/-- A stream with the given ids and nothing else set. -/
def sample_stream (unique_id media_unique_id : Nat) : redis_call_media_stream_t :=
  { unique_id := unique_id, media_unique_id := media_unique_id, selected_sfd := 0,
    rtp_sink := 0, rtcp_sink := 0, rtcp_sibling := 0, last_packet := 0, ps_flags := 0,
    component := 0, endpoint := none, advertised_endpoint := none, stats_packets := 0,
    stats_bytes := 0, stats_errors := 0, fds := [] }

/-- A media with the given id and streams and nothing else set. -/
def sample_media (unique_id : Nat) (streams : List redis_call_media_stream_t) :
    redis_call_media_t :=
  { index := 0, unique_id := unique_id, type := none, protocol := none, desired_family := none,
    logical_intf := none, ptime := 0, media_flags := 0, rtpe_addr := none, tag := none,
    streams := streams, codec_prefs_recv := [], codec_prefs_send := [] }

/-- A call with the given media and nothing else set. -/
def sample_call (media : List redis_call_media_t) : redis_call_t :=
  { call_id := "call", created := 0, last_signal := 0, tos := 0, deleted := false,
    ml_deleted := false, created_from := none, created_from_addr := none,
    redis_hosted_db := 0, recording_metadata := none, block_dtmf := false,
    block_media := false, media := .live media }

/-- A document with a well-formed `media-0` and its four companion documents,
and no `json` section. -/
def doc_media_without_json : JsonNode := .object [
  ("media-0", int_fields [("index", 1)]),
  ("streams-0", .array []),
  ("maps-0", .array []),
  ("payload_types-0", payload_list ["0/PCMU"]),
  ("payload_types_send-0", payload_list ["0/PCMU"])]

/-- A document whose `stream-0` has no `media` field. -/
def doc_stream_without_media : JsonNode := .object [
  sample_json,
  ("stream-0", int_fields [("sfd", 0)])]

/-- A document with one tag whose partner list holds 4294967296. -/
def doc_wide_partner : JsonNode := .object [
  ("tag-0", int_fields [("created", 10)]),
  ("other_tags-0", .array [.int 4294967296])]

/-- A document with three tags, no `other_tags-0`, `other_tags-1` listing 2,
and an `other_tags-5` listing 0. -/
def doc_unpaired_tag : JsonNode := .object [
  ("tag-0", int_fields [("created", 10)]),
  ("tag-1", int_fields [("created", 11)]),
  ("tag-2", int_fields [("created", 12)]),
  ("other_tags-1", .array [.int 2]),
  ("other_tags-5", .array [.int 0])]

/-- A tag with the given id and nothing else set. -/
def sample_tag (unique_id : Nat) : redis_call_media_tag_t :=
  { unique_id := unique_id, created := 0, active := false, deleted := false,
    block_dtmf := false, block_media := false, tag := none, viabranch := none,
    label := none, other_tag := none }

/-- A document with one media, a stream that names it, a stream that names
media 3, and a descriptor that names stream 7. -/
def doc_orphans : JsonNode := .object [
  sample_json,
  ("sfd-0", int_fields [("stream", 7)]),
  ("stream-0", int_fields [("media", 0)]),
  ("stream-1", int_fields [("media", 3)]),
  ("media-0", int_fields [("index", 1)]),
  ("streams-0", .array [.int 0]),
  ("maps-0", .array []),
  ("payload_types-0", payload_list ["0/PCMU"]),
  ("payload_types_send-0", payload_list ["0/PCMU"])]

/-- A document with one media and one stream whose `media` value is
4294967296. -/
def doc_wide_media_id : JsonNode := .object [
  sample_json,
  ("stream-0", int_fields [("media", 4294967296)]),
  ("media-0", int_fields [("index", 1)]),
  ("streams-0", .array [.int 0]),
  ("maps-0", .array []),
  ("payload_types-0", payload_list ["0/PCMU"]),
  ("payload_types_send-0", payload_list ["0/PCMU"])]

/-! ## Decimal field names -/

theorem digitChar_value (d : Nat) (h : d < 10) : (Nat.digitChar d).toNat - 48 = d := by
  interval_cases d <;> rfl

theorem digitChar_isDigit (d : Nat) (h : d < 10) : (Nat.digitChar d).isDigit = true := by
  interval_cases d <;> rfl

theorem toDigitsCore_fold (fuel : Nat) : ∀ (n : Nat) (ds : List Char), n < fuel →
    (Nat.toDigitsCore 10 fuel n ds).foldl (fun acc c => acc * 10 + (c.toNat - 48)) 0
      = ds.foldl (fun acc c => acc * 10 + (c.toNat - 48)) n := by
  induction fuel with
  | zero => intro n ds h; omega
  | succ fuel ih =>
    intro n ds h
    simp only [Nat.toDigitsCore]
    split
    · rename_i h0
      simp only [List.foldl_cons, Nat.zero_mul, Nat.zero_add]
      rw [digitChar_value _ (Nat.mod_lt _ (by decide))]
      congr 1
      omega
    · rename_i h0
      rw [ih (n / 10) _ (by omega)]
      simp only [List.foldl_cons]
      rw [digitChar_value _ (Nat.mod_lt _ (by decide))]
      congr 1
      omega

theorem decimal_value_toDigits (n : Nat) : decimal_value (Nat.toDigits 10 n) = n := by
  unfold decimal_value Nat.toDigits
  rw [toDigitsCore_fold (n + 1) n [] (by omega)]
  rfl

theorem toDigitsCore_isDigit (fuel : Nat) : ∀ (n : Nat) (ds : List Char),
    (∀ c ∈ ds, c.isDigit = true) → ∀ c ∈ Nat.toDigitsCore 10 fuel n ds, c.isDigit = true := by
  induction fuel with
  | zero => intro n ds h c hc; exact h c hc
  | succ fuel ih =>
    intro n ds h
    have hd : ∀ c ∈ Nat.digitChar (n % 10) :: ds, c.isDigit = true := by
      intro c hc
      rcases List.mem_cons.mp hc with rfl | hc
      · exact digitChar_isDigit _ (Nat.mod_lt _ (by decide))
      · exact h c hc
    simp only [Nat.toDigitsCore]
    split
    · exact hd
    · exact ih _ _ hd

theorem toDigits_isDigit (n : Nat) : ∀ c ∈ Nat.toDigits 10 n, c.isDigit = true :=
  toDigitsCore_isDigit (n + 1) n [] (by simp)

theorem toDigitsCore_ne_nil (fuel : Nat) (n : Nat) (ds : List Char) (h : ds ≠ [] ∨ 0 < fuel) :
    Nat.toDigitsCore 10 fuel n ds ≠ [] := by
  induction fuel generalizing n ds with
  | zero => rcases h with h | h; exact h; omega
  | succ fuel ih =>
    simp only [Nat.toDigitsCore]
    split
    · simp
    · exact ih _ _ (Or.inl (by simp))

theorem toString_data (n : Nat) : (toString n).data = Nat.toDigits 10 n := rfl

theorem toString_injective (i j : Nat) (h : toString i = toString j) : i = j := by
  have := congrArg String.data h
  rw [toString_data, toString_data] at this
  rw [← decimal_value_toDigits i, ← decimal_value_toDigits j, this]

theorem str_sprintf_injective (name : String) (i j : Nat)
    (h : str_sprintf name i = str_sprintf name j) : i = j := by
  unfold str_sprintf at h
  have := congrArg String.data h
  simp only [String.data_append, List.append_cancel_left_eq] at this
  exact toString_injective i j (String.ext this)


/-! ## Payload tables -/

theorem get_str_element_payload_list (strs : List String) (idx : Nat) :
    json_reader_get_str_element (payload_list strs) idx = strs[idx]? := by
  simp only [json_reader_get_str_element, payload_list, List.getElem?_map]
  cases strs[idx]? <;> rfl

theorem read_payloads_loop_spec (strs : List String) :
    ∀ (r : Nat) (out : List redis_call_rtp_payload_type_t), r ≤ strs.length →
      redis_call_media_read_payloads_loop (payload_list strs) strs.length r out
        = .ret ((payload_entries (strs.drop (strs.length - r))).map (fun es => out ++ es)) := by
  intro r
  induction r with
  | zero =>
    intro out _
    simp [redis_call_media_read_payloads_loop, payload_entries]
  | succ r ih =>
    intro out hr
    have hidx : strs.length - (r + 1) < strs.length := by omega
    have hdrop : strs.drop (strs.length - (r + 1))
        = strs[strs.length - (r + 1)] :: strs.drop (strs.length - r) := by
      rw [List.drop_eq_getElem_cons hidx]
      congr 2
      omega
    rw [hdrop]
    simp only [redis_call_media_read_payloads_loop, get_str_element_payload_list,
      List.getElem?_eq_getElem hidx, payload_entries, payload_entry]
    cases htok : str_token strs[strs.length - (r + 1)] '/' with
    | none => simp
    | some p =>
      obtain ⟨ptype, rest⟩ := p
      simp only []
      rw [ih _ (by omega)]
      cases payload_entries (strs.drop (strs.length - r)) <;> simp

theorem read_payloads_spec (strs : List String) (hlen : strs.length < 4294967296) :
    redis_call_media_read_payloads (payload_list strs) = .ret (payload_entries strs) := by
  have hcount : to_unsigned (json_reader_count_elements (payload_list strs)) = strs.length := by
    simp only [json_reader_count_elements, payload_list, List.length_map, to_unsigned]
    omega
  unfold redis_call_media_read_payloads
  simp only [hcount]
  rw [read_payloads_loop_spec strs strs.length [] (le_refl _)]
  simp

theorem str_token_chars_none (sep : Char) (cs : List Char) (h : sep ∉ cs) :
    str_token_chars sep cs = none := by
  induction cs with
  | nil => rfl
  | cons c cs ih =>
    simp only [List.mem_cons, not_or] at h
    simp only [str_token_chars, if_neg (Ne.symm h.1), ih h.2]

theorem str_token_chars_split (sep : Char) (tok rest : List Char) (h : sep ∉ tok) :
    str_token_chars sep (tok ++ sep :: rest) = some (tok, rest) := by
  induction tok with
  | nil => simp [str_token_chars]
  | cons c cs ih =>
    simp only [List.mem_cons, not_or] at h
    have ih2 := ih h.2
    show str_token_chars sep (c :: (cs ++ sep :: rest)) = some (c :: cs, rest)
    simp only [str_token_chars, if_neg (Ne.symm h.1), ih2]

theorem str_token_chars_some (sep : Char) (cs : List Char) (h : sep ∈ cs) :
    ∃ tok rest, str_token_chars sep cs = some (tok, rest) ∧ cs = tok ++ sep :: rest
      ∧ sep ∉ tok := by
  induction cs with
  | nil => simp at h
  | cons c cs ih =>
    by_cases hc : c = sep
    · exact ⟨[], cs, by simp [str_token_chars, hc], by simp [hc], by simp⟩
    · have hmem : sep ∈ cs := by
        rcases List.mem_cons.mp h with h | h
        · exact absurd h.symm hc
        · exact h
      obtain ⟨tok, rest, h1, h2, h3⟩ := ih hmem
      refine ⟨c :: tok, rest, by simp [str_token_chars, hc, h1], by simp [h2], ?_⟩
      simp only [List.mem_cons, not_or]
      exact ⟨fun e => hc e.symm, h3⟩

theorem payload_entries_none (strs : List String) (s : String) (hs : s ∈ strs)
    (hsep : '/' ∉ s.data) : payload_entries strs = none := by
  induction strs with
  | nil => simp at hs
  | cons t rest ih =>
    rcases List.mem_cons.mp hs with rfl | hs
    · simp [payload_entries, payload_entry, str_token, str_token_chars_none _ _ hsep]
    · simp only [payload_entries, ih hs]
      cases payload_entry t <;> rfl

theorem payload_entries_some (strs : List String) (h : ∀ s ∈ strs, '/' ∈ s.data) :
    ∃ table, payload_entries strs = some table ∧ table.length = strs.length
      ∧ ∀ (i : Nat) (s : String), strs[i]? = some s →
          ∃ tok rest, s.data = tok ++ '/' :: rest ∧ '/' ∉ tok
            ∧ table[i]? = some ⟨str_to_ui (String.mk tok) 0, String.mk rest⟩ := by
  induction strs with
  | nil => exact ⟨[], rfl, rfl, by simp⟩
  | cons t rest ih =>
    obtain ⟨table, h1, h2, h3⟩ := ih (fun s hs => h s (List.mem_cons_of_mem _ hs))
    obtain ⟨tok, rst, e1, e2, e3⟩ := str_token_chars_some '/' t.data (h t (List.mem_cons_self _ _))
    refine ⟨⟨str_to_ui (String.mk tok) 0, String.mk rst⟩ :: table, ?_, by simp [h2], ?_⟩
    · simp [payload_entries, payload_entry, str_token, e1, h1, redis_call_rtp_payload_type_create]
    · intro i s hi
      cases i with
      | zero =>
        simp only [List.getElem?_cons_zero, Option.some.injEq] at hi
        subst hi
        exact ⟨tok, rst, e2, e3, by simp⟩
      | succ i =>
        simp only [List.getElem?_cons_succ] at hi ⊢
        exact h3 i s hi

theorem isAlpha_not_isDigit (c : Char) (h : c.isAlpha = true) : c.isDigit = false := by
  simp only [Char.isAlpha, Char.isUpper, Char.isLower, Char.isDigit, Bool.or_eq_true,
    Bool.and_eq_true, decide_eq_true_eq, Bool.and_eq_false_iff, decide_eq_false_iff_not,
    UInt32.le_def, BitVec.le_def] at h ⊢
  have e48 : (UInt32.toBitVec 48).toNat = 48 := rfl
  have e57 : (UInt32.toBitVec 57).toNat = 57 := rfl
  have e65 : (UInt32.toBitVec 65).toNat = 65 := rfl
  have e90 : (UInt32.toBitVec 90).toNat = 90 := rfl
  have e97 : (UInt32.toBitVec 97).toNat = 97 := rfl
  have e122 : (UInt32.toBitVec 122).toNat = 122 := rfl
  rw [e48, e57]
  rw [e65, e90, e97, e122] at h
  omega

theorem str_to_ui_no_digit (tok : List Char) (h : ∀ c, tok.head? = some c → c.isDigit = false) :
    str_to_ui (String.mk tok) 0 = 0 := by
  unfold str_to_ui
  cases tok with
  | nil => rfl
  | cons c cs =>
    have := h c rfl
    simp [List.takeWhile, this, to_unsigned]

theorem str_to_ui_toString (n : Nat) : str_to_ui (toString n) 0 = n % 4294967296 := by
  unfold str_to_ui
  have hall : (toString n).data.takeWhile Char.isDigit = Nat.toDigits 10 n := by
    rw [toString_data]
    exact List.takeWhile_eq_self_iff.mpr (toDigits_isDigit n)
  simp only [hall]
  have hne : (Nat.toDigits 10 n).isEmpty = false := by
    cases h : Nat.toDigits 10 n with
    | nil => exact absurd h (toDigitsCore_ne_nil _ _ _ (Or.inr (by omega)))
    | cons _ _ => rfl
  simp [hne, decimal_value_toDigits]

/-! ## The sequential probe -/

theorem seq_probe_some {α : Type} (reader : JsonNode) (key : Nat → String)
    (create : Nat → JsonNode → Option α) :
    ∀ (fuel idx : Nat) (acc out : List α), seq_probe reader key create fuel idx acc = some out →
      ∃ xs : List α, out = acc ++ xs
        ∧ json_reader_read_member reader (key (idx + xs.length)) = none
        ∧ ∀ (i : Nat) (x : α), xs[i]? = some x →
            ∃ v, json_reader_read_member reader (key (idx + i)) = some v
              ∧ create (idx + i) v = some x := by
  intro fuel
  induction fuel with
  | zero => intro idx acc out h; simp [seq_probe] at h
  | succ fuel ih =>
    intro idx acc out h
    simp only [seq_probe] at h
    cases hm : json_reader_read_member reader (key idx) with
    | none =>
      rw [hm] at h
      simp only [Option.some.injEq] at h
      exact ⟨[], by simp [h], by simpa using hm, by simp⟩
    | some v =>
      rw [hm] at h
      simp only [] at h
      cases hc : create idx v with
      | none => rw [hc] at h; simp at h
      | some x =>
        rw [hc] at h
        simp only [] at h
        obtain ⟨xs, h1, h2, h3⟩ := ih _ _ _ h
        refine ⟨x :: xs, by simp [h1], ?_, ?_⟩
        · rw [List.length_cons, ← Nat.add_assoc, Nat.add_right_comm]; exact h2
        · intro i y hi
          cases i with
          | zero =>
            simp only [List.getElem?_cons_zero, Option.some.injEq] at hi
            subst hi
            exact ⟨v, hm, hc⟩
          | succ i =>
            simp only [List.getElem?_cons_succ] at hi
            obtain ⟨w, hw1, hw2⟩ := h3 i y hi
            have e : idx + (i + 1) = idx + 1 + i := by omega
            rw [e]
            exact ⟨w, hw1, hw2⟩

theorem seq_probe_complete {α : Type} (reader : JsonNode) (key : Nat → String)
    (create : Nat → JsonNode → Option α) :
    ∀ (fuel idx : Nat) (acc xs : List α), xs.length < fuel →
      json_reader_read_member reader (key (idx + xs.length)) = none →
      (∀ (i : Nat) (x : α), xs[i]? = some x →
          ∃ v, json_reader_read_member reader (key (idx + i)) = some v
            ∧ create (idx + i) v = some x) →
      seq_probe reader key create fuel idx acc = some (acc ++ xs) := by
  intro fuel
  induction fuel with
  | zero => intro idx acc xs h; omega
  | succ fuel ih =>
    intro idx acc xs hlen habs hpres
    cases xs with
    | nil =>
      simp only [List.length_nil, Nat.add_zero] at habs
      simp [seq_probe, habs]
    | cons x xs =>
      obtain ⟨v, hv1, hv2⟩ := hpres 0 x (by simp)
      simp only [Nat.add_zero] at hv1 hv2
      simp only [seq_probe, hv1, hv2]
      rw [ih (idx + 1) (acc ++ [x]) xs (by simpa using hlen)]
      · simp
      · rw [List.length_cons, ← Nat.add_assoc, Nat.add_right_comm] at habs; exact habs
      · intro i y hi
        have e : idx + 1 + i = idx + (i + 1) := by omega
        rw [e]
        exact hpres (i + 1) y (by simpa using hi)

theorem seq_probe_none {α : Type} (reader : JsonNode) (key : Nat → String)
    (create : Nat → JsonNode → Option α) :
    ∀ (fuel idx : Nat) (acc : List α), seq_probe reader key create fuel idx acc = none →
      (∃ i v, idx ≤ i ∧ json_reader_read_member reader (key i) = some v ∧ create i v = none)
      ∨ (∀ i, idx ≤ i → i < idx + fuel → (json_reader_read_member reader (key i)).isSome) := by
  intro fuel
  induction fuel with
  | zero => intro idx acc _; exact Or.inr (fun i h1 h2 => by omega)
  | succ fuel ih =>
    intro idx acc h
    simp only [seq_probe] at h
    cases hm : json_reader_read_member reader (key idx) with
    | none => rw [hm] at h; simp at h
    | some v =>
      rw [hm] at h
      simp only [] at h
      cases hc : create idx v with
      | none => exact Or.inl ⟨idx, v, le_refl _, hm, hc⟩
      | some x =>
        rw [hc] at h
        simp only [] at h
        rcases ih _ _ h with ⟨i, w, h1, h2, h3⟩ | hall
        · exact Or.inl ⟨i, w, by omega, h2, h3⟩
        · refine Or.inr (fun i h1 h2 => ?_)
          by_cases hi : i = idx
          · subst hi; simp [hm]
          · exact hall i (by omega) (by omega)

theorem read_member_isSome_mem_keys (reader : JsonNode) (name : String)
    (h : (json_reader_read_member reader name).isSome) : name ∈ reader.keys := by
  cases reader with
  | object members =>
    simp only [json_reader_read_member, Option.isSome_map'] at h
    obtain ⟨m, hm⟩ := Option.isSome_iff_exists.mp h
    have h1 := List.mem_of_find?_eq_some hm
    have h2 := List.find?_some hm
    simp only [beq_iff_eq] at h2
    simp only [JsonNode.keys, List.mem_map]
    exact ⟨m, h1, h2⟩
  | _ => simp [json_reader_read_member] at h

theorem keys_length (reader : JsonNode) : reader.keys.length = reader.size := by
  cases reader <;> simp [JsonNode.keys, JsonNode.size]

theorem present_le_size (reader : JsonNode) (key : Nat → String)
    (hinj : ∀ i j, key i = key j → i = j) (k : Nat)
    (h : ∀ i, i < k → (json_reader_read_member reader (key i)).isSome) : k ≤ reader.size := by
  have hnodup : ((List.range k).map key).Nodup :=
    (List.nodup_range k).map (fun i j e => hinj i j e)
  have hsub : (List.range k).map key ⊆ reader.keys := by
    intro name hname
    obtain ⟨i, hi, rfl⟩ := List.mem_map.mp hname
    exact read_member_isSome_mem_keys reader _ (h i (List.mem_range.mp hi))
  have := (List.subperm_of_subset hnodup hsub).length_le
  simpa [keys_length] using this

theorem seq_probe_terminates {α : Type} (reader : JsonNode) (key : Nat → String)
    (hinj : ∀ i j, key i = key j → i = j) (create : Nat → JsonNode → Option α)
    (h : seq_probe reader key create (reader.size + 1) 0 [] = none) :
    ∃ i v, json_reader_read_member reader (key i) = some v ∧ create i v = none := by
  rcases seq_probe_none reader key create _ _ _ h with ⟨i, v, _, h2, h3⟩ | hall
  · exact ⟨i, v, h2, h3⟩
  · have := present_le_size reader key hinj (reader.size + 1)
      (fun i hi => hall i (Nat.zero_le _) (by omega))
    omega

/-! ## The reading loops as sequential probes, and the joins -/

theorem read_stream_fds_probe_eq (reader : JsonNode) :
    ∀ (fuel idx : Nat) (acc : List redis_call_media_stream_fd_t),
      redis_call_read_stream_fds_probe reader fuel idx acc
        = seq_probe reader (str_sprintf "sfd") redis_call_media_stream_fd_create fuel idx acc := by
  intro fuel
  induction fuel with
  | zero => intro idx acc; rfl
  | succ fuel ih =>
    intro idx acc
    simp only [redis_call_read_stream_fds_probe, seq_probe]
    cases json_reader_read_member reader (str_sprintf "sfd" idx) with
    | none => rfl
    | some v =>
      simp only []
      cases redis_call_media_stream_fd_create idx v with
      | none => rfl
      | some t => simp only [ih]

theorem read_streams_probe_eq (reader : JsonNode) (call_sfds : List redis_call_media_stream_fd_t) :
    ∀ (fuel idx : Nat) (acc : List redis_call_media_stream_t),
      redis_call_read_streams_probe reader call_sfds fuel idx acc
        = seq_probe reader (str_sprintf "stream")
            (fun i v => redis_call_media_stream_create i v call_sfds) fuel idx acc := by
  intro fuel
  induction fuel with
  | zero => intro idx acc; rfl
  | succ fuel ih =>
    intro idx acc
    simp only [redis_call_read_streams_probe, seq_probe]
    cases json_reader_read_member reader (str_sprintf "stream" idx) with
    | none => rfl
    | some v =>
      simp only []
      cases redis_call_media_stream_create idx v call_sfds with
      | none => rfl
      | some t => simp only [ih]

theorem value_eq_some {α : Type} (o : outcome (Option α)) (a : α) :
    o.value = some a ↔ o = .ret (some a) := by
  cases o with
  | crash => simp [outcome.value]
  | ret x => simp [outcome.value]

theorem value_isSome {α : Type} (o : outcome (Option α)) (h : o.value.isSome) :
    ∃ a, o = .ret (some a) := by
  obtain ⟨a, ha⟩ := Option.isSome_iff_exists.mp h
  exact ⟨a, (value_eq_some o a).1 ha⟩

theorem read_media_probe_eq (reader : JsonNode) (call_tags : List redis_call_media_tag_t)
    (call_streams : List redis_call_media_stream_t) :
    ∀ (fuel idx : Nat) (acc : List redis_call_media_t),
      (redis_call_read_media_probe reader call_tags call_streams fuel idx acc).value
        = seq_probe reader (str_sprintf "media") (media_entry reader call_tags call_streams)
            fuel idx acc := by
  intro fuel
  induction fuel with
  | zero => intro idx acc; rfl
  | succ fuel ih =>
    intro idx acc
    simp only [redis_call_read_media_probe, seq_probe, json_reader_get_node, media_entry]
    cases json_reader_read_member reader (str_sprintf "media" idx) with
    | none => rfl
    | some v =>
      simp only []
      cases json_reader_read_member reader (str_sprintf "streams" idx) <;>
      cases json_reader_read_member reader (str_sprintf "maps" idx) <;>
      cases json_reader_read_member reader (str_sprintf "payload_types" idx) <;>
      cases json_reader_read_member reader (str_sprintf "payload_types_send" idx) <;>
      first
        | rfl
        | (simp only []
           cases redis_call_media_create idx v call_tags call_streams _ _ _ _ with
           | crash => rfl
           | ret x =>
             cases x with
             | none => rfl
             | some t => exact ih _ _)

theorem read_tags_probe_snd (reader : JsonNode) :
    ∀ (fuel idx : Nat) (acc : List redis_call_media_tag_t),
      (redis_call_read_tags_probe reader fuel idx acc).map Prod.snd
        = seq_probe reader (str_sprintf "tag") redis_call_media_tag_create fuel idx acc := by
  intro fuel
  induction fuel with
  | zero => intro idx acc; rfl
  | succ fuel ih =>
    intro idx acc
    simp only [redis_call_read_tags_probe, seq_probe]
    cases json_reader_read_member reader (str_sprintf "tag" idx) with
    | none => rfl
    | some v =>
      simp only []
      cases redis_call_media_tag_create idx v with
      | none => rfl
      | some t => simp only [ih]

theorem read_tags_probe_idx (reader : JsonNode) :
    ∀ (fuel idx : Nat) (acc : List redis_call_media_tag_t) (n : Nat)
      (out : List redis_call_media_tag_t),
      redis_call_read_tags_probe reader fuel idx acc = some (n, out) →
        n + acc.length = idx + out.length := by
  intro fuel
  induction fuel with
  | zero => intro idx acc n out h; simp [redis_call_read_tags_probe] at h
  | succ fuel ih =>
    intro idx acc n out h
    simp only [redis_call_read_tags_probe] at h
    cases hm : json_reader_read_member reader (str_sprintf "tag" idx) with
    | none =>
      rw [hm] at h
      simp only [Option.some.injEq, Prod.mk.injEq] at h
      rw [h.1, h.2]
    | some v =>
      rw [hm] at h
      simp only [] at h
      cases hc : redis_call_media_tag_create idx v with
      | none => rw [hc] at h; simp at h
      | some t =>
        rw [hc] at h
        simp only [] at h
        have := ih _ _ _ _ h
        simp only [List.length_append, List.length_singleton] at this
        omega

theorem stream_create_fds_spec (sfds : List redis_call_media_stream_fd_t) (unique_id : Nat) :
    ∀ (r : Nat) (fds : List redis_call_media_stream_fd_t), r ≤ sfds.length →
      redis_call_media_stream_create_fds sfds unique_id r fds
        = fds ++ (sfds.drop (sfds.length - r)).filter
            (fun d => decide (d.stream_unique_id = unique_id)) := by
  intro r
  induction r with
  | zero => intro fds _; simp [redis_call_media_stream_create_fds]
  | succ r ih =>
    intro fds hr
    have hidx : sfds.length - (r + 1) < sfds.length := by omega
    have e : sfds.length - r = sfds.length - (r + 1) + 1 := by omega
    simp only [redis_call_media_stream_create_fds, g_queue_peek_nth,
      List.getElem?_eq_getElem hidx]
    rw [List.drop_eq_getElem_cons hidx, ← e]
    by_cases hp : sfds[sfds.length - (r + 1)].stream_unique_id = unique_id
    · simp only [hp, if_true, ih _ (by omega : r ≤ sfds.length), List.filter_cons,
        decide_True, List.append_assoc, List.singleton_append]
    · simp only [hp, if_false, ih _ (by omega : r ≤ sfds.length), List.filter_cons,
        decide_False, Bool.false_eq_true]

theorem media_create_streams_spec (streams : List redis_call_media_stream_t) (unique_id : Nat) :
    ∀ (r : Nat) (out : List redis_call_media_stream_t), r ≤ streams.length →
      redis_call_media_create_streams streams unique_id r out
        = out ++ (streams.drop (streams.length - r)).filter
            (fun s => decide (s.media_unique_id = unique_id)) := by
  intro r
  induction r with
  | zero => intro out _; simp [redis_call_media_create_streams]
  | succ r ih =>
    intro out hr
    have hidx : streams.length - (r + 1) < streams.length := by omega
    have e : streams.length - r = streams.length - (r + 1) + 1 := by omega
    simp only [redis_call_media_create_streams, g_queue_peek_nth,
      List.getElem?_eq_getElem hidx]
    rw [List.drop_eq_getElem_cons hidx, ← e]
    by_cases hp : streams[streams.length - (r + 1)].media_unique_id = unique_id
    · simp only [hp, if_true, ih _ (by omega : r ≤ streams.length), List.filter_cons,
        decide_True, List.append_assoc, List.singleton_append]
    · simp only [hp, if_false, ih _ (by omega : r ≤ streams.length), List.filter_cons,
        decide_False, Bool.false_eq_true]

theorem stream_create_some (unique_id : Nat) (json : JsonNode)
    (sfds : List redis_call_media_stream_fd_t) (s : redis_call_media_stream_t)
    (h : redis_call_media_stream_create unique_id json sfds = some s) :
    s.unique_id = unique_id
      ∧ JSON_UPDATE_NUM_FIELD_IF_SET_OR_FAIL json "media" = some s.media_unique_id
      ∧ s.fds = sfds.filter (fun d => decide (d.stream_unique_id = unique_id)) := by
  unfold redis_call_media_stream_create at h
  cases hm : JSON_UPDATE_NUM_FIELD_IF_SET_OR_FAIL json "media" with
  | none => rw [hm] at h; exact absurd h (by simp)
  | some m =>
    rw [hm] at h
    simp only [Option.some.injEq] at h
    subst h
    refine ⟨rfl, rfl, ?_⟩
    simp only []
    rw [stream_create_fds_spec _ _ _ _ (le_refl _)]
    simp

theorem stream_fd_create_some (unique_id : Nat) (json : JsonNode)
    (d : redis_call_media_stream_fd_t)
    (h : redis_call_media_stream_fd_create unique_id json = some d) :
    d.unique_id = unique_id
      ∧ JSON_UPDATE_NUM_FIELD_IF_SET_OR_FAIL json "stream" = some d.stream_unique_id := by
  unfold redis_call_media_stream_fd_create at h
  cases hm : JSON_UPDATE_NUM_FIELD_IF_SET_OR_FAIL json "stream" with
  | none => rw [hm] at h; exact absurd h (by simp)
  | some m =>
    rw [hm] at h
    simp only [Option.some.injEq] at h
    subst h
    exact ⟨rfl, rfl⟩

theorem media_create_some (unique_id : Nat) (json : JsonNode)
    (tags : List redis_call_media_tag_t) (streams : List redis_call_media_stream_t)
    (a b recv send : JsonNode) (m : redis_call_media_t)
    (h : redis_call_media_create unique_id json tags streams a b recv send = .ret (some m)) :
    m.unique_id = unique_id
      ∧ m.streams = streams.filter (fun s => decide (s.media_unique_id = unique_id))
      ∧ redis_call_media_create_tag json tags = some m.tag
      ∧ redis_call_media_read_payloads recv = .ret (some m.codec_prefs_recv)
      ∧ redis_call_media_read_payloads send = .ret (some m.codec_prefs_send) := by
  unfold redis_call_media_create at h
  cases ht : redis_call_media_create_tag json tags with
  | none => rw [ht] at h; exact absurd h (by simp)
  | some t =>
    rw [ht] at h
    simp only [] at h
    cases hr : redis_call_media_read_payloads recv with
    | crash => rw [hr] at h; exact absurd h (by simp)
    | ret r =>
      cases r with
      | none => rw [hr] at h; exact absurd h (by simp)
      | some r =>
        rw [hr] at h
        simp only [] at h
        cases hs : redis_call_media_read_payloads send with
        | crash => rw [hs] at h; exact absurd h (by simp)
        | ret s =>
          cases s with
          | none => rw [hs] at h; exact absurd h (by simp)
          | some s =>
            rw [hs] at h
            simp only [outcome.ret.injEq, Option.some.injEq] at h
            subst h
            refine ⟨rfl, ?_, rfl, rfl, rfl⟩
            simp only []
            rw [media_create_streams_spec _ _ _ _ (le_refl _)]
            simp

theorem media_entry_some (reader : JsonNode) (call_tags : List redis_call_media_tag_t)
    (call_streams : List redis_call_media_stream_t) (idx : Nat) (mediaNode : JsonNode)
    (m : redis_call_media_t)
    (h : media_entry reader call_tags call_streams idx mediaNode = some m) :
    ∃ a b recv send,
      json_reader_get_node reader (str_sprintf "streams" idx) = some a
      ∧ json_reader_get_node reader (str_sprintf "maps" idx) = some b
      ∧ json_reader_get_node reader (str_sprintf "payload_types" idx) = some recv
      ∧ json_reader_get_node reader (str_sprintf "payload_types_send" idx) = some send
      ∧ redis_call_media_create idx mediaNode call_tags call_streams a b recv send
          = .ret (some m) := by
  unfold media_entry at h
  cases h1 : json_reader_get_node reader (str_sprintf "streams" idx) <;>
  cases h2 : json_reader_get_node reader (str_sprintf "maps" idx) <;>
  cases h3 : json_reader_get_node reader (str_sprintf "payload_types" idx) <;>
  cases h4 : json_reader_get_node reader (str_sprintf "payload_types_send" idx) <;>
  rw [h1, h2, h3, h4] at h <;> simp only [] at h <;> try exact absurd h (by simp)
  exact ⟨_, _, _, _, rfl, rfl, rfl, rfl, (value_eq_some _ _).1 h⟩

/-! ## Tag pairing -/

theorem set_other_tag_ids (ts : List redis_call_media_tag_t) (p q : Nat) :
    tag_ids (set_other_tag ts p q) = tag_ids ts := by
  unfold set_other_tag tag_ids
  cases h : ts[p]? with
  | none => rfl
  | some t =>
    simp only []
    apply List.ext_getElem?
    intro i
    simp only [List.getElem?_map, List.getElem?_set]
    by_cases hi : p = i
    · subst hi
      simp only [if_true, h]
      have hlt : p < ts.length := by
        rcases Nat.lt_or_ge p ts.length with hlt | hge
        · exact hlt
        · rw [List.getElem?_eq_none hge] at h; exact absurd h (by simp)
      simp [hlt]
    · simp [hi]

theorem tag_ids_length (ts : List redis_call_media_tag_t) : (tag_ids ts).length = ts.length := by
  simp [tag_ids]

theorem set_other_tag_length (ts : List redis_call_media_tag_t) (p q : Nat) :
    (set_other_tag ts p q).length = ts.length := by
  rw [← tag_ids_length, set_other_tag_ids, tag_ids_length]

theorem set_other_tag_ne (ts : List redis_call_media_tag_t) (p q r : Nat) (h : p ≠ r) :
    (set_other_tag ts p q)[r]? = ts[r]? := by
  unfold set_other_tag
  cases ts[p]? with
  | none => rfl
  | some t => simp [h]

theorem other_tag_of_set_ne (ts : List redis_call_media_tag_t) (p q r : Nat) (h : p ≠ r) :
    other_tag_of (set_other_tag ts p q) r = other_tag_of ts r := by
  simp only [other_tag_of, set_other_tag_ne ts p q r h]

theorem other_tag_of_set_eq (ts : List redis_call_media_tag_t) (p q : Nat) (h : p < ts.length) :
    other_tag_of (set_other_tag ts p q) p = some q := by
  unfold other_tag_of set_other_tag
  rw [List.getElem?_eq_getElem h]
  simp [h]

theorem match_tags_loop_ids (tag : Nat) (reader : JsonNode) (num : Nat) :
    ∀ (r : Nat) (ts out : List redis_call_media_tag_t),
      redis_call_match_tags_loop tag reader num r ts = some out → tag_ids out = tag_ids ts := by
  intro r
  induction r with
  | zero =>
    intro ts out h
    simp only [redis_call_match_tags_loop, Option.some.injEq] at h
    rw [h]
  | succ r ih =>
    intro ts out h
    simp only [redis_call_match_tags_loop] at h
    cases hp : g_queue_peek_nth ts (to_unsigned (json_reader_get_ll_element reader (num - (r + 1))))
      with
    | none => rw [hp] at h; simp at h
    | some t =>
      rw [hp] at h
      simp only [] at h
      rw [ih _ _ h, set_other_tag_ids, set_other_tag_ids]

theorem match_tags_loop_ok (tag : Nat) (reader : JsonNode) (num : Nat) :
    ∀ (r : Nat) (ts : List redis_call_media_tag_t),
      (∀ idx, idx < num → other_tagid reader idx < ts.length) → r ≤ num →
      ∃ out, redis_call_match_tags_loop tag reader num r ts = some out := by
  intro r
  induction r with
  | zero => intro ts _ _; exact ⟨ts, rfl⟩
  | succ r ih =>
    intro ts hidx hr
    have hlt := hidx (num - (r + 1)) (by omega)
    unfold other_tagid at hlt
    simp only [redis_call_match_tags_loop, g_queue_peek_nth, List.getElem?_eq_getElem hlt]
    apply ih
    · intro idx hi
      rw [set_other_tag_length, set_other_tag_length]
      exact hidx idx hi
    · omega

theorem match_tags_loop_frame (tag : Nat) (reader : JsonNode) (num p : Nat)
    (hp : ∀ idx, idx < num → tag ≠ p ∧ other_tagid reader idx ≠ p) :
    ∀ (r : Nat) (ts out : List redis_call_media_tag_t), r ≤ num →
      redis_call_match_tags_loop tag reader num r ts = some out →
      other_tag_of out p = other_tag_of ts p := by
  intro r
  induction r with
  | zero =>
    intro ts out _ h
    simp only [redis_call_match_tags_loop, Option.some.injEq] at h
    rw [h]
  | succ r ih =>
    intro ts out hr h
    simp only [redis_call_match_tags_loop] at h
    cases hq : g_queue_peek_nth ts (to_unsigned (json_reader_get_ll_element reader (num - (r + 1))))
      with
    | none => rw [hq] at h; simp at h
    | some t =>
      rw [hq] at h
      simp only [] at h
      have hne := hp (num - (r + 1)) (by omega)
      unfold other_tagid at hne
      rw [ih _ _ (by omega) h, other_tag_of_set_ne _ _ _ _ hne.2,
        other_tag_of_set_ne _ _ _ _ hne.1]

theorem match_tags_loop_last (tag : Nat) (reader : JsonNode) (num : Nat) :
    ∀ (r : Nat) (ts out : List redis_call_media_tag_t), 0 < r → r ≤ num → tag < ts.length →
      tag ≠ other_tagid reader (num - 1) →
      redis_call_match_tags_loop tag reader num r ts = some out →
      other_tag_of out tag = some (other_tagid reader (num - 1))
        ∧ other_tag_of out (other_tagid reader (num - 1)) = some tag := by
  intro r
  induction r with
  | zero => intro ts out h; omega
  | succ r ih =>
    intro ts out _ hr htag hne h
    simp only [redis_call_match_tags_loop] at h
    cases hq : g_queue_peek_nth ts (to_unsigned (json_reader_get_ll_element reader (num - (r + 1))))
      with
    | none => rw [hq] at h; simp at h
    | some t =>
      rw [hq] at h
      simp only [] at h
      by_cases hr0 : r = 0
      · subst hr0
        simp only [redis_call_match_tags_loop, Option.some.injEq] at h
        have hj : other_tagid reader (num - 1) < ts.length := by
          unfold other_tagid
          simp only [g_queue_peek_nth, Nat.zero_add] at hq
          rcases Nat.lt_or_ge (to_unsigned (json_reader_get_ll_element reader (num - 1))) ts.length
            with hlt | hge
          · exact hlt
          · rw [List.getElem?_eq_none hge] at hq; exact absurd hq (by simp)
        subst h
        simp only [Nat.zero_add]
        simp only [other_tagid] at hne hj ⊢
        constructor
        · rw [other_tag_of_set_ne _ _ _ _ (Ne.symm hne)]
          exact other_tag_of_set_eq _ _ _ htag
        · exact other_tag_of_set_eq _ _ _ (by rw [set_other_tag_length]; exact hj)
      · exact ih _ _ (by omega) (by omega)
          (by rw [set_other_tag_length, set_other_tag_length]; exact htag) hne h

theorem read_tags_others_ids (reader : JsonNode) (k : Nat) :
    ∀ (r : Nat) (ts out : List redis_call_media_tag_t),
      redis_call_read_tags_others reader k r ts = some out → tag_ids out = tag_ids ts := by
  intro r
  induction r with
  | zero =>
    intro ts out h
    simp only [redis_call_read_tags_others, Option.some.injEq] at h
    rw [h]
  | succ r ih =>
    intro ts out h
    simp only [redis_call_read_tags_others] at h
    cases hm : json_reader_read_member reader (str_sprintf "other_tags" (k - (r + 1))) with
    | none => rw [hm] at h; exact ih _ _ h
    | some v =>
      rw [hm] at h
      simp only [] at h
      cases hq : g_queue_peek_nth ts (k - (r + 1)) with
      | none => rw [hq] at h; simp at h
      | some t =>
        rw [hq] at h
        simp only [] at h
        cases hmt : redis_call_match_tags (k - (r + 1)) ts v with
        | none => rw [hmt] at h; simp at h
        | some ts1 =>
          rw [hmt] at h
          simp only [] at h
          rw [ih _ _ h]
          unfold redis_call_match_tags at hmt
          split at hmt
          · exact match_tags_loop_ids _ _ _ _ _ _ hmt
          · simp at hmt

theorem read_tags_others_ok (reader : JsonNode) (k : Nat)
    (hothers : ∀ i, i < k → ∀ v,
      json_reader_read_member reader (str_sprintf "other_tags" i) = some v →
        json_reader_is_array v = true ∧ ∀ idx, idx < num_others v → other_tagid v idx < k) :
    ∀ (r : Nat) (ts : List redis_call_media_tag_t), ts.length = k → r ≤ k →
      ∃ out, redis_call_read_tags_others reader k r ts = some out := by
  intro r
  induction r with
  | zero => intro ts _ _; exact ⟨ts, rfl⟩
  | succ r ih =>
    intro ts hlen hr
    have hi : k - (r + 1) < k := by omega
    simp only [redis_call_read_tags_others]
    cases hm : json_reader_read_member reader (str_sprintf "other_tags" (k - (r + 1))) with
    | none => exact ih ts hlen (by omega)
    | some v =>
      simp only [g_queue_peek_nth, List.getElem?_eq_getElem (by omega : k - (r + 1) < ts.length)]
      obtain ⟨harr, hidx⟩ := hothers _ hi v hm
      obtain ⟨ts1, h1⟩ := match_tags_loop_ok (k - (r + 1)) v (num_others v) (num_others v) ts
        (by intro idx hlt; rw [hlen]; exact hidx idx hlt) (le_refl _)
      have hmt : redis_call_match_tags (k - (r + 1)) ts v = some ts1 := by
        unfold redis_call_match_tags
        rw [if_pos harr]
        exact h1
      rw [hmt]
      simp only []
      apply ih _ _ (by omega)
      have := match_tags_loop_ids _ _ _ _ _ _ h1
      rw [← tag_ids_length, this, tag_ids_length, hlen]

theorem read_tags_others_frame (reader : JsonNode) (k p : Nat) :
    ∀ (r : Nat) (ts out : List redis_call_media_tag_t), r ≤ k →
      (∀ i, k - r ≤ i → i < k → ∀ v,
        json_reader_read_member reader (str_sprintf "other_tags" i) = some v →
          ∀ idx, idx < num_others v → i ≠ p ∧ other_tagid v idx ≠ p) →
      redis_call_read_tags_others reader k r ts = some out →
      other_tag_of out p = other_tag_of ts p := by
  intro r
  induction r with
  | zero =>
    intro ts out _ _ h
    simp only [redis_call_read_tags_others, Option.some.injEq] at h
    rw [h]
  | succ r ih =>
    intro ts out hr hfree h
    have hfree2 : ∀ i, k - r ≤ i → i < k → ∀ v,
        json_reader_read_member reader (str_sprintf "other_tags" i) = some v →
          ∀ idx, idx < num_others v → i ≠ p ∧ other_tagid v idx ≠ p :=
      fun i h1 h2 => hfree i (by omega) h2
    simp only [redis_call_read_tags_others] at h
    cases hm : json_reader_read_member reader (str_sprintf "other_tags" (k - (r + 1))) with
    | none => rw [hm] at h; exact ih _ _ (by omega) hfree2 h
    | some v =>
      rw [hm] at h
      simp only [] at h
      cases hq : g_queue_peek_nth ts (k - (r + 1)) with
      | none => rw [hq] at h; simp at h
      | some t =>
        rw [hq] at h
        simp only [] at h
        cases hmt : redis_call_match_tags (k - (r + 1)) ts v with
        | none => rw [hmt] at h; simp at h
        | some ts1 =>
          rw [hmt] at h
          simp only [] at h
          rw [ih _ _ (by omega) hfree2 h]
          unfold redis_call_match_tags at hmt
          split at hmt
          · exact match_tags_loop_frame _ _ _ p
              (hfree (k - (r + 1)) (by omega) (by omega) v hm) _ _ _ (le_refl _) hmt
          · simp at hmt

/-! ## Properties of the payload table builder -/

theorem payload_entries_strings (items : List (Nat × String))
    (hn : ∀ it ∈ items, it.1 < 4294967296) :
    payload_entries (payload_strings items)
      = some (items.map (fun it => ⟨it.1, it.2⟩)) := by
  induction items with
  | nil => rfl
  | cons it rest ih =>
    have hrest := ih (fun x hx => hn x (List.mem_cons_of_mem _ hx))
    have hit := hn it (List.mem_cons_self _ _)
    have hsep : '/' ∉ (toString it.1).data := by
      intro hmem
      have := toDigits_isDigit it.1 '/' (by rw [← toString_data]; exact hmem)
      exact absurd this (by decide)
    have htok : str_token (toString it.1 ++ "/" ++ it.2) '/' = some (toString it.1, it.2) := by
      unfold str_token
      have hdata : (toString it.1 ++ "/" ++ it.2).data
          = (toString it.1).data ++ '/' :: it.2.data := by
        simp [String.data_append]
      rw [hdata, str_token_chars_split _ _ _ hsep]
    unfold payload_strings at hrest ⊢
    simp only [List.map_cons, payload_entries, payload_entry, htok, hrest,
      redis_call_rtp_payload_type_create, str_to_ui_toString, Nat.mod_eq_of_lt hit]

/-- C3 (as amended): for every list of strings `<n>/<name>` with `n` written in
decimal and below 2^32, `redis_call_media_read_payloads` returns a table of the
same length whose i-th entry has payload type `n_i` and, as codec descriptor,
the text after the first `/` of the i-th string, in input order. -/
theorem read_payloads_well_formed (items : List (Nat × String))
    (hlen : items.length < 4294967296) (hn : ∀ it ∈ items, it.1 < 4294967296) :
    redis_call_media_read_payloads (payload_list (payload_strings items))
      = .ret (some (items.map (fun it => ⟨it.1, it.2⟩))) := by
  rw [read_payloads_spec _ (by simpa [payload_strings] using hlen)]
  exact congrArg outcome.ret (payload_entries_strings items hn)

/-- Instance of C3: the table of `["0/PCMU", "8/PCMA"]` is `(0, PCMU)`,
`(8, PCMA)`. -/
theorem read_payloads_well_formed_witness :
    payload_strings [(0, "PCMU"), (8, "PCMA")] = ["0/PCMU", "8/PCMA"]
      ∧ redis_call_media_read_payloads (payload_list (payload_strings [(0, "PCMU"), (8, "PCMA")]))
          = .ret (some [⟨0, "PCMU"⟩, ⟨8, "PCMA"⟩]) :=
  ⟨by decide,
   read_payloads_well_formed [(0, "PCMU"), (8, "PCMA")] (by decide) (by decide)⟩

/-- C3 (as stated) fails: the payload type is an `unsigned`, so the string
`4294967296/PCMU` gives an entry with payload type 0, not 4294967296. -/
theorem read_payloads_number_wraps :
    payload_strings [(4294967296, "PCMU")] = ["4294967296/PCMU"]
      ∧ redis_call_media_read_payloads (payload_list ["4294967296/PCMU"])
          = .ret (some [⟨0, "PCMU"⟩])
      ∧ redis_call_media_read_payloads (payload_list ["4294967296/PCMU"])
          ≠ .ret (some [⟨4294967296, "PCMU"⟩]) := by
  decide

/-- C4: for every list of strings in which some element contains no `/`,
`redis_call_media_read_payloads` returns no table, wherever that element stands
and however many well-formed elements precede it. -/
theorem read_payloads_no_separator (strs : List String) (s : String)
    (hlen : strs.length < 4294967296) (hs : s ∈ strs) (hsep : '/' ∉ s.data) :
    redis_call_media_read_payloads (payload_list strs) = .ret none := by
  rw [read_payloads_spec strs hlen]
  exact congrArg outcome.ret (payload_entries_none strs s hs hsep)

/-- Instance of C4: the list `["0/PCMU", "PCMU"]` has no table. -/
theorem read_payloads_no_separator_witness :
    redis_call_media_read_payloads (payload_list ["0/PCMU", "PCMU"]) = .ret none :=
  read_payloads_no_separator ["0/PCMU", "PCMU"] "PCMU" (by decide) (by decide) (by decide)

/-- C5 (as stated) fails: `abc/PCMU` and `/PCMU` do not abort the table, each
gives an entry with payload type 0. -/
theorem read_payloads_bad_number_kept :
    redis_call_media_read_payloads (payload_list ["abc/PCMU", "/PCMU"])
      = .ret (some [⟨0, "PCMU"⟩, ⟨0, "PCMU"⟩]) := by
  decide

/-- C5 (as amended): a payload-type number that does not parse does not abort
the table.  For every list of strings that all contain a `/`, the table is built
with one entry per element, and an element whose part before the first `/` is
empty or starts with a letter (such as `/PCMU` or `abc/PCMU`) gets payload
type 0, the default that is passed to `str_to_ui`. -/
theorem read_payloads_bad_number_default (strs : List String)
    (hlen : strs.length < 4294967296) (hsep : ∀ s ∈ strs, '/' ∈ s.data) :
    ∃ table, redis_call_media_read_payloads (payload_list strs) = .ret (some table)
      ∧ table.length = strs.length
      ∧ ∀ (i : Nat) (s : String), strs[i]? = some s →
          (∀ c, s.data.head? = some c → c.isAlpha = true ∨ c = '/') →
          (table[i]?).map (fun e => e.payload_type) = some 0 := by
  obtain ⟨table, h1, h2, h3⟩ := payload_entries_some strs hsep
  refine ⟨table, by rw [read_payloads_spec strs hlen, h1], h2, ?_⟩
  intro i s hi hhead
  obtain ⟨tok, rest, e1, e2, e3⟩ := h3 i s hi
  rw [e3]
  have : str_to_ui (String.mk tok) 0 = 0 := by
    apply str_to_ui_no_digit
    intro c hc
    cases tok with
    | nil => simp at hc
    | cons d ds =>
      simp only [List.head?_cons, Option.some.injEq] at hc
      subst hc
      rcases hhead d (by rw [e1]; rfl) with h | h
      · exact isAlpha_not_isDigit d h
      · exact absurd (h ▸ List.mem_cons_self d ds) e2
  simp [this]

/-- Instance of C5 as amended: the list `["abc/PCMU", "8/PCMA"]` has a table
of two entries, the first with payload type 0. -/
theorem read_payloads_bad_number_default_witness :
    ∃ table, redis_call_media_read_payloads (payload_list ["abc/PCMU", "8/PCMA"])
        = .ret (some table)
      ∧ table.length = ["abc/PCMU", "8/PCMA"].length
      ∧ ∀ (i : Nat) (s : String), ["abc/PCMU", "8/PCMA"][i]? = some s →
          (∀ c, s.data.head? = some c → c.isAlpha = true ∨ c = '/') →
          (table[i]?).map (fun e => e.payload_type) = some 0 :=
  read_payloads_bad_number_default ["abc/PCMU", "8/PCMA"] (by decide) (by decide)

/-! ## Properties of streams and of the aggregation helper -/

theorem signed_field_spec (reader : JsonNode) (key : String) :
    (∀ v : Int, json_reader_read_member reader key = some (.int v) →
        (1000 ≤ v → JSON_UPDATE_SIGNED_NUM_FIELD_IF_SET reader key 0 = -1)
        ∧ (0 ≤ v → v ≤ 999 → JSON_UPDATE_SIGNED_NUM_FIELD_IF_SET reader key 0 = v))
    ∧ (json_reader_read_member reader key = none →
        JSON_UPDATE_SIGNED_NUM_FIELD_IF_SET reader key 0 = 0) := by
  refine ⟨fun v hv => ⟨fun h => ?_, fun h0 h1 => ?_⟩, fun h => ?_⟩
  · simp only [JSON_UPDATE_SIGNED_NUM_FIELD_IF_SET, json_reader_get_ll, hv]
    rw [if_pos (by omega), if_neg (by omega)]
  · simp only [JSON_UPDATE_SIGNED_NUM_FIELD_IF_SET, json_reader_get_ll, hv]
    rw [if_pos (by omega), if_pos (by omega)]
  · simp [JSON_UPDATE_SIGNED_NUM_FIELD_IF_SET, json_reader_get_ll, h]

/-- C6: in a stream built by `redis_call_media_stream_create`, each of
`rtp_sink`, `rtcp_sink` and `rtcp_sibling` is -1 when the document holds a
value of 1000 or more for it, is the value itself when that is between 0 and
999, and is 0 when the field is absent. -/
theorem stream_create_sentinel_capping (unique_id : Nat) (json : JsonNode)
    (sfds : List redis_call_media_stream_fd_t) (s : redis_call_media_stream_t)
    (h : redis_call_media_stream_create unique_id json sfds = some s) :
    ((∀ v : Int, json_reader_read_member json "rtp_sink" = some (.int v) →
        (1000 ≤ v → s.rtp_sink = -1) ∧ (0 ≤ v → v ≤ 999 → s.rtp_sink = v))
      ∧ (json_reader_read_member json "rtp_sink" = none → s.rtp_sink = 0))
    ∧ ((∀ v : Int, json_reader_read_member json "rtcp_sink" = some (.int v) →
        (1000 ≤ v → s.rtcp_sink = -1) ∧ (0 ≤ v → v ≤ 999 → s.rtcp_sink = v))
      ∧ (json_reader_read_member json "rtcp_sink" = none → s.rtcp_sink = 0))
    ∧ ((∀ v : Int, json_reader_read_member json "rtcp_sibling" = some (.int v) →
        (1000 ≤ v → s.rtcp_sibling = -1) ∧ (0 ≤ v → v ≤ 999 → s.rtcp_sibling = v))
      ∧ (json_reader_read_member json "rtcp_sibling" = none → s.rtcp_sibling = 0)) := by
  unfold redis_call_media_stream_create at h
  cases hm : JSON_UPDATE_NUM_FIELD_IF_SET_OR_FAIL json "media" with
  | none => rw [hm] at h; exact absurd h (by simp)
  | some m =>
    rw [hm] at h
    simp only [Option.some.injEq] at h
    subst h
    exact ⟨signed_field_spec json "rtp_sink", signed_field_spec json "rtcp_sink",
      signed_field_spec json "rtcp_sibling"⟩

/-- Instance of C6: a stream document with `rtp_sink` 1000, `rtcp_sink` 999
and no `rtcp_sibling` gives -1, 999 and 0. -/
theorem stream_create_sentinel_capping_witness :
    ∃ s, redis_call_media_stream_create 0
        (int_fields [("media", 0), ("rtp_sink", 1000), ("rtcp_sink", 999)]) [] = some s
      ∧ s.rtp_sink = -1 ∧ s.rtcp_sink = 999 ∧ s.rtcp_sibling = 0 := by
  refine ⟨_, rfl, ?_⟩
  have h := stream_create_sentinel_capping 0
    (int_fields [("media", 0), ("rtp_sink", 1000), ("rtcp_sink", 999)]) [] _ rfl
  exact ⟨(h.1.1 1000 rfl).1 (by decide),
    (h.2.1.1 999 rfl).2 (by decide) (by decide), h.2.2.2 rfl⟩

theorem get_streams_inner_spec (media : redis_call_media_t) :
    ∀ (r : Nat) (streams : List redis_call_media_stream_t), r ≤ media.streams.length →
      redis_call_get_streams_inner media r streams
        = streams ++ media.streams.drop (media.streams.length - r) := by
  intro r
  induction r with
  | zero => intro streams _; simp [redis_call_get_streams_inner]
  | succ r ih =>
    intro streams hr
    have hidx : media.streams.length - (r + 1) < media.streams.length := by omega
    have e : media.streams.length - r = media.streams.length - (r + 1) + 1 := by omega
    simp only [redis_call_get_streams_inner, g_queue_peek_nth, List.getElem?_eq_getElem hidx]
    rw [ih _ (by omega), List.drop_eq_getElem_cons hidx, List.append_assoc, e]
    rfl

theorem get_streams_outer_spec (call_media : List redis_call_media_t) :
    ∀ (r : Nat) (streams : List redis_call_media_stream_t), r ≤ call_media.length →
      redis_call_get_streams_outer call_media r streams
        = streams ++ ((call_media.drop (call_media.length - r)).map (fun m => m.streams)).flatten := by
  intro r
  induction r with
  | zero => intro streams _; simp [redis_call_get_streams_outer]
  | succ r ih =>
    intro streams hr
    have hidx : call_media.length - (r + 1) < call_media.length := by omega
    simp only [redis_call_get_streams_outer, g_queue_peek_nth, List.getElem?_eq_getElem hidx]
    have e : call_media.length - r = call_media.length - (r + 1) + 1 := by omega
    rw [ih _ (by omega), get_streams_inner_spec _ _ _ (le_refl _),
      List.drop_eq_getElem_cons hidx, e]
    simp only [Nat.sub_self, List.drop_zero, List.map_cons, List.flatten_cons, List.append_assoc]

/-- C8: for every call with a media queue, `redis_call_get_streams` returns
the concatenation of the streams lists of the media, in media order and then
in stream order within each media; its length is the sum of the per-media
stream counts. -/
theorem get_streams_is_concatenation (callref : redis_call_t)
    (call_media : List redis_call_media_t) (h : callref.media = .live call_media) :
    redis_call_get_streams callref = some ((call_media.map (fun m => m.streams)).flatten)
      ∧ ((call_media.map (fun m => m.streams)).flatten).length
          = (call_media.map (fun m => m.streams.length)).sum := by
  constructor
  · unfold redis_call_get_streams
    rw [h]
    simp only []
    rw [get_streams_outer_spec _ _ _ (le_refl _)]
    simp
  · simp [List.length_flatten, Function.comp_def]

/-! ## Counting by foreign key -/

theorem sum_filter_split {α : Type} (f g : α → Nat) (M : Nat) (l : List α) :
    ((l.filter (fun x => decide (f x < M + 1))).map g).sum
      = ((l.filter (fun x => decide (f x < M))).map g).sum
        + ((l.filter (fun x => decide (f x = M))).map g).sum := by
  induction l with
  | nil => rfl
  | cons x l ih =>
    simp only [List.filter_cons]
    rcases Nat.lt_trichotomy (f x) M with h | h | h
    · have e1 : decide (f x < M + 1) = true := decide_eq_true (by omega)
      have e2 : decide (f x < M) = true := decide_eq_true h
      have e3 : decide (f x = M) = false := decide_eq_false (by omega)
      simp only [e1, e2, e3, if_true, Bool.false_eq_true, if_false,
        List.map_cons, List.sum_cons, ih]
      omega
    · have e1 : decide (f x < M + 1) = true := decide_eq_true (by omega)
      have e2 : decide (f x < M) = false := decide_eq_false (by omega)
      have e3 : decide (f x = M) = true := decide_eq_true h
      simp only [e1, e2, e3, if_true, Bool.false_eq_true, if_false,
        List.map_cons, List.sum_cons, ih]
      omega
    · have e1 : decide (f x < M + 1) = false := decide_eq_false (by omega)
      have e2 : decide (f x < M) = false := decide_eq_false (by omega)
      have e3 : decide (f x = M) = false := decide_eq_false (by omega)
      simp only [e1, e2, e3, Bool.false_eq_true, if_false, ih]

theorem sum_filter_range {α : Type} (f g : α → Nat) (l : List α) :
    ∀ M : Nat, ((List.range M).map
        (fun i => ((l.filter (fun x => decide (f x = i))).map g).sum)).sum
      = ((l.filter (fun x => decide (f x < M))).map g).sum := by
  intro M
  induction M with
  | zero => simp
  | succ M ih =>
    rw [List.range_succ, List.map_append, List.sum_append, ih, sum_filter_split f g M l]
    simp

theorem sum_by_key {α : Type} (f g : α → Nat) (l : List α) (M : Nat)
    (h : ∀ x ∈ l, f x < M) :
    ((List.range M).map (fun i => ((l.filter (fun x => decide (f x = i))).map g).sum)).sum
      = (l.map g).sum := by
  rw [sum_filter_range f g l M]
  congr 2
  apply List.filter_eq_self.mpr
  intro x hx
  simpa using h x hx

theorem list_eq_map_range {α : Type} (l : List α) (F : Nat → α)
    (h : ∀ (i : Nat) (x : α), l[i]? = some x → x = F i) :
    l = (List.range l.length).map F := by
  apply List.ext_getElem?
  intro i
  by_cases hi : i < l.length
  · rw [List.getElem?_map, List.getElem?_range hi, List.getElem?_eq_getElem hi]
    simp only [Option.map_some', Option.some.injEq]
    exact h i _ (List.getElem?_eq_getElem hi)
  · rw [List.getElem?_eq_none (Nat.le_of_not_lt hi),
      List.getElem?_eq_none (by simpa using Nat.le_of_not_lt hi)]

/-! ## Inversion of the readers -/

theorem seq_probe_succeeds {α : Type} (reader : JsonNode) (key : Nat → String)
    (create : Nat → JsonNode → Option α) :
    ∀ (fuel idx : Nat) (acc : List α) (n : Nat), n < fuel →
      json_reader_read_member reader (key (idx + n)) = none →
      (∀ i, i < n → ∃ v, json_reader_read_member reader (key (idx + i)) = some v
          ∧ (create (idx + i) v).isSome) →
      ∃ xs, seq_probe reader key create fuel idx acc = some (acc ++ xs) ∧ xs.length = n := by
  intro fuel
  induction fuel with
  | zero => intro idx acc n h; omega
  | succ fuel ih =>
    intro idx acc n hlen habs hpres
    cases n with
    | zero =>
      simp only [Nat.add_zero] at habs
      exact ⟨[], by simp [seq_probe, habs], rfl⟩
    | succ n =>
      obtain ⟨v, hv1, hv2⟩ := hpres 0 (by omega)
      simp only [Nat.add_zero] at hv1 hv2
      obtain ⟨x, hx⟩ := Option.isSome_iff_exists.mp hv2
      have e : idx + (n + 1) = idx + 1 + n := by omega
      obtain ⟨xs, h1, h2⟩ := ih (idx + 1) (acc ++ [x]) n (by omega) (by rw [← e]; exact habs)
        (fun i hi => by
          have e2 : idx + 1 + i = idx + (i + 1) := by omega
          rw [e2]
          exact hpres (i + 1) (by omega))
      refine ⟨x :: xs, ?_, by simp [h2]⟩
      simp only [seq_probe, hv1, hx, h1, List.append_assoc, List.singleton_append]

theorem seq_probe_length_unique (reader : JsonNode) (key : Nat → String) (n k : Nat)
    (hn : json_reader_read_member reader (key n) = none)
    (hnp : ∀ i, i < n → (json_reader_read_member reader (key i)).isSome)
    (hk : json_reader_read_member reader (key k) = none)
    (hkp : ∀ i, i < k → (json_reader_read_member reader (key i)).isSome) : n = k := by
  rcases Nat.lt_trichotomy n k with h | h | h
  · have := hkp n h; rw [hn] at this; simp at this
  · exact h
  · have := hnp k h; rw [hk] at this; simp at this

theorem seq_probe_some_root {α : Type} (reader : JsonNode) (key : Nat → String)
    (create : Nat → JsonNode → Option α) (fuel : Nat) (out : List α)
    (h : seq_probe reader key create fuel 0 [] = some out) :
    json_reader_read_member reader (key out.length) = none
      ∧ (∀ i, i < out.length → (json_reader_read_member reader (key i)).isSome)
      ∧ ∀ (i : Nat) (x : α), out[i]? = some x →
          ∃ v, json_reader_read_member reader (key i) = some v ∧ create i v = some x := by
  obtain ⟨xs, h1, h2, h3⟩ := seq_probe_some reader key create fuel 0 [] out h
  simp only [List.nil_append] at h1
  subst h1
  simp only [Nat.zero_add] at h2 h3
  refine ⟨h2, ?_, h3⟩
  intro i hi
  obtain ⟨v, hv, _⟩ := h3 i out[i] (List.getElem?_eq_getElem hi)
  simp [hv]

theorem tag_create_some (unique_id : Nat) (json : JsonNode) (t : redis_call_media_tag_t)
    (h : redis_call_media_tag_create unique_id json = some t) :
    t.unique_id = unique_id ∧ t.other_tag = none := by
  unfold redis_call_media_tag_create at h
  cases hm : JSON_UPDATE_NUM_FIELD_IF_SET_OR_FAIL_ulong json "created" with
  | none => rw [hm] at h; exact absurd h (by simp)
  | some m =>
    rw [hm] at h
    simp only [Option.some.injEq] at h
    subst h
    exact ⟨rfl, rfl⟩

theorem tag_create_isSome (unique_id : Nat) (json : JsonNode)
    (h : 0 ≤ json_reader_get_ll json "created") :
    (redis_call_media_tag_create unique_id json).isSome := by
  unfold redis_call_media_tag_create JSON_UPDATE_NUM_FIELD_IF_SET_OR_FAIL_ulong
  simp only [ge_iff_le, h, if_true]
  rfl

theorem read_tags_some (reader : JsonNode) (tags : List redis_call_media_tag_t)
    (h : redis_call_read_tags reader = some tags) :
    ∃ tags0, seq_probe reader (str_sprintf "tag") redis_call_media_tag_create
        (reader.size + 1) 0 [] = some tags0
      ∧ redis_call_read_tags_others reader tags0.length tags0.length tags0 = some tags
      ∧ tags.length = tags0.length := by
  unfold redis_call_read_tags at h
  cases hp : redis_call_read_tags_probe reader (reader.size + 1) 0 [] with
  | none => rw [hp] at h; simp at h
  | some p =>
    obtain ⟨n, tags0⟩ := p
    rw [hp] at h
    simp only [] at h
    have hn := read_tags_probe_idx reader _ _ _ _ _ hp
    simp only [List.length_nil, Nat.add_zero, Nat.zero_add] at hn
    subst hn
    have hs := read_tags_probe_snd reader (reader.size + 1) 0 []
    rw [hp] at hs
    simp only [Option.map_some'] at hs
    refine ⟨tags0, hs.symm, h, ?_⟩
    have := read_tags_others_ids reader _ _ _ _ h
    rw [← tag_ids_length, this, tag_ids_length]

theorem probe_tag_ids (reader : JsonNode) (fuel : Nat) (tags0 : List redis_call_media_tag_t)
    (h : seq_probe reader (str_sprintf "tag") redis_call_media_tag_create fuel 0 [] = some tags0) :
    tag_ids tags0 = List.range tags0.length := by
  obtain ⟨_, _, h3⟩ := seq_probe_some_root _ _ _ _ _ h
  apply List.ext_getElem?
  intro i
  simp only [tag_ids, List.getElem?_map, List.getElem?_range]
  by_cases hi : i < tags0.length
  · obtain ⟨v, _, hv⟩ := h3 i tags0[i] (List.getElem?_eq_getElem hi)
    simp [List.getElem?_eq_getElem hi, hi, (tag_create_some _ _ _ hv).1]
  · rw [List.getElem?_eq_none (Nat.le_of_not_lt hi),
      List.getElem?_eq_none (by simpa using Nat.le_of_not_lt hi)]
    rfl


theorem read_media_live (reader : JsonNode) (q : List redis_call_media_t)
    (h : redis_call_read_media reader = .ret (.live q)) :
    ∃ tags streams, redis_call_read_tags reader = some tags
      ∧ redis_call_read_streams reader = some streams
      ∧ seq_probe reader (str_sprintf "media") (media_entry reader tags streams)
          (reader.size + 1) 0 [] = some q := by
  unfold redis_call_read_media at h
  cases ht : redis_call_read_tags reader with
  | none => rw [ht] at h; simp at h
  | some tags =>
    rw [ht] at h
    simp only [] at h
    cases hs : redis_call_read_streams reader with
    | none => rw [hs] at h; simp at h
    | some streams =>
      rw [hs] at h
      simp only [] at h
      have hv := read_media_probe_eq reader tags streams (reader.size + 1) 0 []
      cases hp : redis_call_read_media_probe reader tags streams (reader.size + 1) 0 [] with
      | crash => rw [hp] at h; simp at h
      | ret r =>
        cases r with
        | none => rw [hp] at h; simp at h
        | some q2 =>
          rw [hp] at h hv
          simp only [outcome.ret.injEq, media_queue_ptr.live.injEq] at h
          subst h
          exact ⟨tags, streams, rfl, rfl, hv.symm⟩

theorem create_ok (callid : String) (doc : JsonNode) (callref : redis_call_t)
    (h : redis_call_create callid doc = .ret (.ok callref)) :
    redis_call_read_media doc = .ret callref.media ∧ callref.media ≠ .null := by
  unfold redis_call_create at h
  cases hj : json_reader_read_member doc "json" with
  | none => rw [hj] at h; simp at h
  | some v =>
    rw [hj] at h
    simp only [] at h
    cases hc : redis_call_create_from_metadata callid v with
    | none => rw [hc] at h; simp at h
    | some c =>
      rw [hc] at h
      simp only [] at h
      cases hm : redis_call_read_media doc with
      | crash => rw [hm] at h; simp at h
      | ret ptr =>
        cases ptr with
        | null => rw [hm] at h; simp at h
        | live q =>
          rw [hm] at h
          simp only [outcome.ret.injEq, Except.ok.injEq] at h
          subst h
          exact ⟨rfl, by simp⟩
        | released =>
          rw [hm] at h
          simp only [outcome.ret.injEq, Except.ok.injEq] at h
          subst h
          exact ⟨rfl, by simp⟩

theorem read_streams_some (reader : JsonNode) (streams : List redis_call_media_stream_t)
    (h : redis_call_read_streams reader = some streams) :
    ∃ sfds, redis_call_read_stream_fds reader = some sfds
      ∧ seq_probe reader (str_sprintf "sfd") redis_call_media_stream_fd_create
          (reader.size + 1) 0 [] = some sfds
      ∧ seq_probe reader (str_sprintf "stream")
          (fun i v => redis_call_media_stream_create i v sfds) (reader.size + 1) 0 []
            = some streams := by
  unfold redis_call_read_streams at h
  cases hs : redis_call_read_stream_fds reader with
  | none => rw [hs] at h; simp at h
  | some sfds =>
    rw [hs] at h
    simp only [] at h
    rw [read_streams_probe_eq] at h
    refine ⟨sfds, rfl, ?_, h⟩
    unfold redis_call_read_stream_fds at hs
    rw [read_stream_fds_probe_eq] at hs
    exact hs

/-- Every stream of the flat list carries its position as `unique_id` and,
as `fds`, the descriptors of the flat list that name it. -/
theorem flat_streams_spec (reader : JsonNode) (sfds : List redis_call_media_stream_fd_t)
    (fuel : Nat) (streams : List redis_call_media_stream_t)
    (h : seq_probe reader (str_sprintf "stream")
      (fun i v => redis_call_media_stream_create i v sfds) fuel 0 [] = some streams)
    (i : Nat) (s : redis_call_media_stream_t) (hs : streams[i]? = some s) :
    s.unique_id = i ∧ s.fds = sfds.filter (fun d => decide (d.stream_unique_id = i)) := by
  obtain ⟨_, _, h3⟩ := seq_probe_some_root _ _ _ _ _ h
  obtain ⟨v, _, hv⟩ := h3 i s hs
  have := stream_create_some _ _ _ _ hv
  exact ⟨this.1, this.2.2⟩

/-- Every media of the call carries its position as `unique_id` and, as
`streams`, the streams of the flat list that name it. -/
theorem call_media_spec (reader : JsonNode) (tags : List redis_call_media_tag_t)
    (streams : List redis_call_media_stream_t) (fuel : Nat) (q : List redis_call_media_t)
    (h : seq_probe reader (str_sprintf "media") (media_entry reader tags streams) fuel 0 []
      = some q)
    (i : Nat) (m : redis_call_media_t) (hm : q[i]? = some m) :
    m.unique_id = i ∧ m.streams = streams.filter (fun s => decide (s.media_unique_id = i)) := by
  obtain ⟨_, _, h3⟩ := seq_probe_some_root _ _ _ _ _ h
  obtain ⟨v, _, hv⟩ := h3 i m hm
  obtain ⟨a, b, recv, send, _, _, _, _, hc⟩ := media_entry_some _ _ _ _ _ _ hv
  have := media_create_some _ _ _ _ _ _ _ _ _ hc
  exact ⟨this.1, this.2.1⟩

theorem to_unsigned_of_lt (k : Nat) (h : k < 4294967296) : to_unsigned (k : Int) = k := by
  unfold to_unsigned
  omega


/-! ## Properties of the tag builder -/

/-- C10 (as amended): for every document in which `tag-<k>` is the first
absent tag, every `tag-<i>` below it is well-formed (has a non-negative
`created`) and every present `other_tags-<i>` with `i < k` is an array of
indices below `k`, `redis_call_read_tags` returns exactly `k` tags, the i-th
with `unique_id` i, whatever fields `tag-<j>` with `j > k` the document has. -/
theorem read_tags_sequential_probe (doc : JsonNode) (k : Nat)
    (habsent : json_reader_read_member doc (str_sprintf "tag" k) = none)
    (hpresent : ∀ i, i < k → ∃ v, json_reader_read_member doc (str_sprintf "tag" i) = some v
      ∧ 0 ≤ json_reader_get_ll v "created")
    (hothers : ∀ i, i < k → ∀ v,
      json_reader_read_member doc (str_sprintf "other_tags" i) = some v →
        json_reader_is_array v = true ∧ ∀ idx, idx < num_others v → other_tagid v idx < k) :
    ∃ tags, redis_call_read_tags doc = some tags ∧ tags.length = k
      ∧ tag_ids tags = List.range k := by
  have hk : k ≤ doc.size := by
    apply present_le_size doc (str_sprintf "tag") (str_sprintf_injective "tag") k
    intro i hi
    obtain ⟨v, hv, _⟩ := hpresent i hi
    simp [hv]
  obtain ⟨tags0, h0, hlen⟩ := seq_probe_succeeds doc (str_sprintf "tag")
    redis_call_media_tag_create (doc.size + 1) 0 [] k (by omega)
    (by simpa using habsent)
    (fun i hi => by
      obtain ⟨v, hv, hc⟩ := hpresent i hi
      exact ⟨v, by simpa using hv, by simpa using tag_create_isSome _ v hc⟩)
  simp only [List.nil_append] at h0
  obtain ⟨tags, ht⟩ := read_tags_others_ok doc k hothers k tags0 hlen (le_refl _)
  have hids := read_tags_others_ids doc _ _ _ _ ht
  have hprobe : redis_call_read_tags_probe doc (doc.size + 1) 0 [] = some (k, tags0) := by
    have hs := read_tags_probe_snd doc (doc.size + 1) 0 []
    rw [h0] at hs
    cases hp : redis_call_read_tags_probe doc (doc.size + 1) 0 [] with
    | none => rw [hp] at hs; simp at hs
    | some p =>
      obtain ⟨n, l⟩ := p
      rw [hp] at hs
      simp only [Option.map_some', Option.some.injEq] at hs
      have hn := read_tags_probe_idx doc _ _ _ _ _ hp
      simp only [List.length_nil, Nat.add_zero, Nat.zero_add] at hn
      subst hs
      rw [hn, hlen]
  refine ⟨tags, ?_, ?_, ?_⟩
  · unfold redis_call_read_tags
    rw [hprobe]
    exact ht
  · rw [← tag_ids_length, hids, tag_ids_length, hlen]
  · rw [hids, probe_tag_ids doc _ _ h0, hlen]

/-- Instance of C10: the document `tag-0`, `tag-1`, `tag-3` gives exactly 2
tags. -/
theorem read_tags_sequential_probe_witness :
    ∃ tags, redis_call_read_tags doc_tags_gap = some tags ∧ tags.length = 2
      ∧ tag_ids tags = List.range 2 :=
  read_tags_sequential_probe doc_tags_gap 2 rfl
    (fun i hi => by
      interval_cases i
      · exact ⟨int_fields [("created", 10)], rfl, by decide⟩
      · exact ⟨int_fields [("created", 11)], rfl, by decide⟩)
    (fun i hi v hv => by
      interval_cases i
      · have e : json_reader_read_member doc_tags_gap (str_sprintf "other_tags" 0)
            = some (.array [.int 1]) := rfl
        rw [e] at hv
        cases hv
        refine ⟨rfl, fun idx hidx => ?_⟩
        have h1 : num_others (.array [.int 1]) = 1 := rfl
        rw [h1] at hidx
        interval_cases idx
        decide
      · have e : json_reader_read_member doc_tags_gap (str_sprintf "other_tags" 1) = none := rfl
        rw [e] at hv
        cases hv)

/-- C10 (as stated) fails: `tag-0` is well-formed and `tag-1` is absent, but
`other_tags-0` names a tag that does not exist, and `redis_call_read_tags`
returns no tags instead of one. -/
theorem read_tags_fails_on_dangling_partner :
    json_reader_read_member doc_dangling_partner (str_sprintf "tag" 1) = none
      ∧ (∃ v t, json_reader_read_member doc_dangling_partner (str_sprintf "tag" 0) = some v
          ∧ redis_call_media_tag_create 0 v = some t)
      ∧ redis_call_read_tags doc_dangling_partner = none :=
  ⟨rfl, ⟨_, _, rfl, rfl⟩, rfl⟩

/-- C7 (as amended): for every document that reconstructs into a call with a
media queue, the descriptor built from an `sfd-<j>` below the first absent one
that declares `stream = k`, with `k` below 2^32, is in the `fds` list of a
stream of the call exactly when that stream has `unique_id` k, whether `j` is
smaller or larger than `k`. -/
theorem descriptor_join (callid : String) (doc : JsonNode) (callref : redis_call_t)
    (call_media : List redis_call_media_t) (j k : Nat) (node : JsonNode)
    (hcreate : redis_call_create callid doc = .ret (.ok callref))
    (hlive : callref.media = .live call_media)
    (hbelow : ∀ i, i ≤ j → (json_reader_read_member doc (str_sprintf "sfd" i)).isSome)
    (hnode : json_reader_read_member doc (str_sprintf "sfd" j) = some node)
    (hk : json_reader_get_ll node "stream" = (k : Int)) (hk32 : k < 4294967296) :
    ∃ d, redis_call_media_stream_fd_create j node = some d
      ∧ ∀ m ∈ call_media, ∀ s ∈ m.streams, (d ∈ s.fds ↔ s.unique_id = k) := by
  have hmedia := (create_ok callid doc callref hcreate).1
  rw [hlive] at hmedia
  obtain ⟨tags, streams, _, hstreams, hprobe⟩ := read_media_live doc call_media hmedia
  obtain ⟨sfds, _, hsfds, hflat⟩ := read_streams_some doc streams hstreams
  obtain ⟨habs, _, helem⟩ := seq_probe_some_root _ _ _ _ _ hsfds
  have hj : j < sfds.length := by
    rcases Nat.lt_or_ge j sfds.length with h | h
    · exact h
    · have := hbelow sfds.length h
      rw [habs] at this
      simp at this
  obtain ⟨v, hv1, hv2⟩ := helem j sfds[j] (List.getElem?_eq_getElem hj)
  rw [hnode] at hv1
  simp only [Option.some.injEq] at hv1
  subst hv1
  have hd := stream_fd_create_some _ _ _ hv2
  have hsid : sfds[j].stream_unique_id = k := by
    have h2 := hd.2
    unfold JSON_UPDATE_NUM_FIELD_IF_SET_OR_FAIL at h2
    rw [hk] at h2
    simp only [ge_iff_le, Int.natCast_nonneg, if_true, Option.some.injEq] at h2
    rw [← h2, to_unsigned_of_lt k hk32]
  refine ⟨sfds[j], hv2, ?_⟩
  intro m hm s hs
  obtain ⟨im, him⟩ := List.mem_iff_getElem?.mp hm
  have hms := (call_media_spec _ _ _ _ _ hprobe im m him).2
  rw [hms] at hs
  have hs2 := (List.mem_filter.mp hs).1
  obtain ⟨is, his⟩ := List.mem_iff_getElem?.mp hs2
  obtain ⟨hu, hf⟩ := flat_streams_spec _ _ _ _ hflat is s his
  rw [hf, List.mem_filter, hu]
  simp only [decide_eq_true_eq, hsid]
  constructor
  · intro h; exact h.2.symm
  · intro h; exact ⟨List.getElem_mem _, h.symm⟩

/-- C1 does not hold of the code.  On a document with a valid
`json` section, well-formed `media-0` and `media-1`, and a `media-2` without
`maps-2`, `redis_call_read_media` returns the pointer to the queue it has just
released, which is not `NULL`, and `redis_call_create` returns a call whose
`media` is that dangling pointer, instead of no call. -/
theorem create_missing_companion_returns_call :
    json_reader_read_member doc_missing_maps (str_sprintf "media" 2)
        = some (int_fields [("index", 3)])
      ∧ json_reader_read_member doc_missing_maps (str_sprintf "maps" 2) = none
      ∧ redis_call_read_media doc_missing_maps = .ret .released
      ∧ ∃ callref, redis_call_create "call" doc_missing_maps = .ret (.ok callref)
          ∧ callref.media = .released :=
  ⟨rfl, rfl, rfl, _, rfl, rfl⟩

/-- Instance of C8: on the call with media 0 holding the streams 0 and 1 and
media 1 holding stream 2, the result is the streams 0, 1, 2. -/
theorem get_streams_is_concatenation_witness :
    redis_call_get_streams
        (sample_call [sample_media 0 [sample_stream 0 0, sample_stream 1 0],
          sample_media 1 [sample_stream 2 1]])
      = some [sample_stream 0 0, sample_stream 1 0, sample_stream 2 1] :=
  (get_streams_is_concatenation
    (sample_call [sample_media 0 [sample_stream 0 0, sample_stream 1 0],
      sample_media 1 [sample_stream 2 1]])
    [sample_media 0 [sample_stream 0 0, sample_stream 1 0], sample_media 1 [sample_stream 2 1]]
    rfl).1

/-- Instance of C7 as amended: in the sample document, `sfd-0` declares
stream 2: its descriptor is in the `fds` of stream 2 and of no other stream of
the call. -/
theorem descriptor_join_witness :
    ∃ callref call_media d, redis_call_create "call" doc_two_media = .ret (.ok callref)
      ∧ callref.media = .live call_media
      ∧ redis_call_media_stream_fd_create 0 (int_fields [("stream", 2)]) = some d
      ∧ ∀ m ∈ call_media, ∀ s ∈ m.streams, (d ∈ s.fds ↔ s.unique_id = 2) := by
  obtain ⟨d, h1, h2⟩ := descriptor_join "call" doc_two_media _ _ 0 2
    (int_fields [("stream", 2)]) rfl rfl
    (fun i hi => by
      have : i = 0 := by omega
      subst this
      rfl)
    rfl rfl (by decide)
  exact ⟨_, _, d, rfl, rfl, h1, h2⟩

/-- C7 (as stated) fails: the stream id of a descriptor is an `unsigned`.  The
descriptor of `sfd-0`, which declares stream 4294967296, is in the `fds` of the
stream with `unique_id` 0. -/
theorem descriptor_join_wraps :
    json_reader_read_member doc_wide_stream_id (str_sprintf "sfd" 0)
        = some (int_fields [("stream", 4294967296)])
      ∧ ∃ callref call_media, redis_call_create "call" doc_wide_stream_id = .ret (.ok callref)
          ∧ callref.media = .live call_media
          ∧ call_media.map (fun m => m.streams.map
              (fun s => (s.unique_id, s.fds.map (fun d => d.unique_id)))) = [[(0, [0])]] :=
  ⟨rfl, _, _, rfl, rfl, rfl⟩

theorem sum_map_one {α : Type} (l : List α) : (l.map (fun _ => 1)).sum = l.length := by
  induction l with
  | nil => rfl
  | cons x l ih => simp only [List.map_cons, List.sum_cons, ih, List.length_cons]; omega

theorem count_by_key {α : Type} (f : α → Nat) (l : List α) (M : Nat) (h : ∀ x ∈ l, f x < M) :
    ((List.range M).map (fun i => (l.filter (fun x => decide (f x = i))).length)).sum
      = l.length := by
  have := sum_by_key f (fun _ => 1) l M h
  simp only [sum_map_one] at this
  exact this

theorem sum_flatten_map {α : Type} (g : α → Nat) (L : List (List α)) :
    ((L.flatten).map g).sum = (L.map (fun l => (l.map g).sum)).sum := by
  induction L with
  | nil => rfl
  | cons l L ih =>
    simp only [List.flatten_cons, List.map_append, List.sum_append, List.map_cons,
      List.sum_cons, ih]

/-- C9 (as amended): for every document that reconstructs into a call with a
media queue, with `M` the first absent media index, in which every stream
names a media below `M` and every descriptor names a stream below the number
of streams, the call has exactly `M` media, the lengths of the media's streams
lists sum to the number of streams read, and the lengths of those streams' fds
lists sum to the number of descriptors read. -/
theorem flat_counts (callid : String) (doc : JsonNode) (callref : redis_call_t)
    (call_media : List redis_call_media_t) (sfds : List redis_call_media_stream_fd_t)
    (streams : List redis_call_media_stream_t) (M : Nat)
    (hcreate : redis_call_create callid doc = .ret (.ok callref))
    (hlive : callref.media = .live call_media)
    (hsfds : redis_call_read_stream_fds doc = some sfds)
    (hstreams : redis_call_read_streams doc = some streams)
    (hM : json_reader_read_member doc (str_sprintf "media" M) = none)
    (hMp : ∀ i, i < M → (json_reader_read_member doc (str_sprintf "media" i)).isSome)
    (hfk_media : ∀ s ∈ streams, s.media_unique_id < M)
    (hfk_stream : ∀ d ∈ sfds, d.stream_unique_id < streams.length) :
    call_media.length = M
      ∧ (call_media.map (fun m => m.streams.length)).sum = streams.length
      ∧ (((call_media.map (fun m => m.streams)).flatten).map (fun s => s.fds.length)).sum
          = sfds.length := by
  have hmedia := (create_ok callid doc callref hcreate).1
  rw [hlive] at hmedia
  obtain ⟨tags, streams2, _, hstreams2, hprobe⟩ := read_media_live doc call_media hmedia
  rw [hstreams] at hstreams2
  simp only [Option.some.injEq] at hstreams2
  subst hstreams2
  obtain ⟨sfds2, hsfds2, _, hflat⟩ := read_streams_some doc streams hstreams
  rw [hsfds] at hsfds2
  simp only [Option.some.injEq] at hsfds2
  subst hsfds2
  obtain ⟨habs, hpres, _⟩ := seq_probe_some_root _ _ _ _ _ hprobe
  have hlen : call_media.length = M :=
    seq_probe_length_unique doc (str_sprintf "media") _ _ habs hpres hM hMp
  have hL : call_media.map (fun m => m.streams)
      = (List.range M).map
          (fun i => streams.filter (fun s => decide (s.media_unique_id = i))) := by
    have := list_eq_map_range (call_media.map (fun m => m.streams))
      (fun i => streams.filter (fun s => decide (s.media_unique_id = i)))
      (fun i x hx => by
        rw [List.getElem?_map] at hx
        cases hm : call_media[i]? with
        | none => rw [hm] at hx; simp at hx
        | some m =>
          rw [hm] at hx
          simp only [Option.map_some', Option.some.injEq] at hx
          rw [← hx]
          exact (call_media_spec _ _ _ _ _ hprobe i m hm).2)
    rw [List.length_map, hlen] at this
    exact this
  have hS : streams.map (fun s => s.fds.length)
      = (List.range streams.length).map
          (fun k => (sfds.filter (fun d => decide (d.stream_unique_id = k))).length) := by
    have := list_eq_map_range (streams.map (fun s => s.fds.length))
      (fun k => (sfds.filter (fun d => decide (d.stream_unique_id = k))).length)
      (fun i x hx => by
        rw [List.getElem?_map] at hx
        cases hs : streams[i]? with
        | none => rw [hs] at hx; simp at hx
        | some s =>
          rw [hs] at hx
          simp only [Option.map_some', Option.some.injEq] at hx
          rw [← hx, (flat_streams_spec _ _ _ _ hflat i s hs).2])
    rw [List.length_map] at this
    exact this
  refine ⟨hlen, ?_, ?_⟩
  · have : call_media.map (fun m => m.streams.length)
        = (call_media.map (fun m => m.streams)).map List.length := by
      simp [List.map_map, Function.comp_def]
    rw [this, hL, List.map_map]
    exact count_by_key (fun s => s.media_unique_id) streams M hfk_media
  · rw [sum_flatten_map, hL, List.map_map]
    have := sum_by_key (fun s : redis_call_media_stream_t => s.media_unique_id)
      (fun s => s.fds.length) streams M hfk_media
    simp only [Function.comp_def]
    rw [this, hS]
    exact count_by_key (fun d => d.stream_unique_id) sfds streams.length hfk_stream


/-- Instance of C9 as amended: the sample document has 3 descriptors, 3
streams and 2 media, and the call has 2 media, 3 streams and 3 descriptors. -/
theorem flat_counts_witness :
    ∃ callref call_media sfds streams,
      redis_call_create "call" doc_two_media = .ret (.ok callref)
      ∧ callref.media = .live call_media
      ∧ redis_call_read_stream_fds doc_two_media = some sfds ∧ sfds.length = 3
      ∧ redis_call_read_streams doc_two_media = some streams ∧ streams.length = 3
      ∧ call_media.length = 2
      ∧ (call_media.map (fun m => m.streams.length)).sum = streams.length
      ∧ (((call_media.map (fun m => m.streams)).flatten).map (fun s => s.fds.length)).sum
          = sfds.length :=
  ⟨_, _, _, _, rfl, rfl, rfl, rfl, rfl, rfl,
    flat_counts "call" doc_two_media _ _ _ _ 2 rfl rfl rfl rfl rfl
      (by decide) (by decide) (by decide)⟩

/-- C9 (as stated) fails: a document with one stream that names media 3 and
with no media reconstructs into a call with 0 media; the document has 1 stream
and the streams of the call sum to 0. -/
theorem flat_counts_orphan_stream :
    json_reader_read_member doc_orphan_stream (str_sprintf "media" 0) = none
      ∧ (redis_call_read_streams doc_orphan_stream).map List.length = some 1
      ∧ ∃ callref, redis_call_create "call" doc_orphan_stream = .ret (.ok callref)
          ∧ callref.media = .live []
          ∧ redis_call_get_streams callref = some [] :=
  ⟨rfl, rfl, _, rfl, rfl, rfl⟩

/-! ## Failures of the readers, and the media probe -/

theorem seq_probe_fails {α : Type} (reader : JsonNode) (key : Nat → String)
    (create : Nat → JsonNode → Option α) (fuel i : Nat) (v : JsonNode)
    (hbelow : ∀ j, j ≤ i → (json_reader_read_member reader (key j)).isSome)
    (hv : json_reader_read_member reader (key i) = some v) (hc : create i v = none) :
    seq_probe reader key create fuel 0 [] = none := by
  cases h : seq_probe reader key create fuel 0 [] with
  | none => rfl
  | some out =>
    obtain ⟨habs, _, helem⟩ := seq_probe_some_root reader key create fuel out h
    have hi : i < out.length := by
      rcases Nat.lt_or_ge i out.length with hlt | hge
      · exact hlt
      · have := hbelow out.length hge
        rw [habs] at this
        simp at this
    obtain ⟨w, hw1, hw2⟩ := helem i out[i] (List.getElem?_eq_getElem hi)
    rw [hv] at hw1
    simp only [Option.some.injEq] at hw1
    subst hw1
    rw [hc] at hw2
    simp at hw2

theorem get_ll_absent (reader : JsonNode) (key : String)
    (h : json_reader_read_member reader key = none) : json_reader_get_ll reader key = -1 := by
  simp [json_reader_get_ll, h]

theorem metadata_none (callid : String) (json : JsonNode)
    (h : json_reader_get_ll json "created" < 0) :
    redis_call_create_from_metadata callid json = none := by
  unfold redis_call_create_from_metadata JSON_UPDATE_NUM_FIELD_IF_SET_OR_FAIL_ulong
  simp only [ge_iff_le]
  rw [if_neg (by omega)]

theorem tag_create_none (unique_id : Nat) (json : JsonNode)
    (h : json_reader_get_ll json "created" < 0) :
    redis_call_media_tag_create unique_id json = none := by
  unfold redis_call_media_tag_create JSON_UPDATE_NUM_FIELD_IF_SET_OR_FAIL_ulong
  simp only [ge_iff_le]
  rw [if_neg (by omega)]

theorem stream_fd_create_none (unique_id : Nat) (json : JsonNode)
    (h : json_reader_get_ll json "stream" < 0) :
    redis_call_media_stream_fd_create unique_id json = none := by
  unfold redis_call_media_stream_fd_create JSON_UPDATE_NUM_FIELD_IF_SET_OR_FAIL
  simp only [ge_iff_le]
  rw [if_neg (by omega)]

theorem stream_create_none (unique_id : Nat) (json : JsonNode)
    (sfds : List redis_call_media_stream_fd_t) (h : json_reader_get_ll json "media" < 0) :
    redis_call_media_stream_create unique_id json sfds = none := by
  unfold redis_call_media_stream_create JSON_UPDATE_NUM_FIELD_IF_SET_OR_FAIL
  simp only [ge_iff_le]
  rw [if_neg (by omega)]

theorem read_tags_none_of_probe (reader : JsonNode)
    (h : seq_probe reader (str_sprintf "tag") redis_call_media_tag_create
      (reader.size + 1) 0 [] = none) : redis_call_read_tags reader = none := by
  have hs := read_tags_probe_snd reader (reader.size + 1) 0 []
  rw [h] at hs
  unfold redis_call_read_tags
  cases hp : redis_call_read_tags_probe reader (reader.size + 1) 0 [] with
  | none => rfl
  | some p => rw [hp] at hs; simp at hs

theorem read_stream_fds_eq (reader : JsonNode) :
    redis_call_read_stream_fds reader
      = seq_probe reader (str_sprintf "sfd") redis_call_media_stream_fd_create
          (reader.size + 1) 0 [] := by
  unfold redis_call_read_stream_fds
  rw [read_stream_fds_probe_eq]

theorem read_streams_none_of_fds (reader : JsonNode)
    (h : redis_call_read_stream_fds reader = none) : redis_call_read_streams reader = none := by
  unfold redis_call_read_streams
  rw [h]

theorem read_media_null_of_tags (reader : JsonNode) (h : redis_call_read_tags reader = none) :
    redis_call_read_media reader = .ret .null := by
  unfold redis_call_read_media
  rw [h]

theorem read_media_null_of_streams (reader : JsonNode)
    (h : redis_call_read_streams reader = none) : redis_call_read_media reader = .ret .null := by
  unfold redis_call_read_media
  rw [h]
  cases redis_call_read_tags reader <;> rfl

theorem create_error_of_null (callid : String) (doc : JsonNode)
    (h : redis_call_read_media doc = .ret .null) :
    ∃ err, redis_call_create callid doc = .ret (.error err) := by
  unfold redis_call_create
  cases json_reader_read_member doc "json" with
  | none => exact ⟨_, rfl⟩
  | some v =>
    simp only []
    cases redis_call_create_from_metadata callid v with
    | none => exact ⟨_, rfl⟩
    | some c =>
      simp only [h]
      exact ⟨_, rfl⟩

/-- C12: for every root document without a `json` member, `redis_call_create`
returns no call and the reason it reports is "Could not find call data",
whatever else the document contains; that reason differs from "Failed to read
call data" and from "Failed to read call media". -/
theorem create_missing_root_section (callid : String) (doc : JsonNode)
    (h : json_reader_read_member doc "json" = none) :
    redis_call_create callid doc = .ret (.error "Could not find call data")
      ∧ "Could not find call data" ≠ "Failed to read call data"
      ∧ "Could not find call data" ≠ "Failed to read call media" := by
  refine ⟨?_, by decide, by decide⟩
  unfold redis_call_create
  rw [h]


theorem below_of_lt (reader : JsonNode) (key : Nat → String) (i : Nat) (v : JsonNode)
    (hlt : ∀ j, j < i → (json_reader_read_member reader (key j)).isSome)
    (hv : json_reader_read_member reader (key i) = some v) :
    ∀ j, j ≤ i → (json_reader_read_member reader (key j)).isSome := by
  intro j hj
  rcases Nat.lt_or_ge j i with h | h
  · exact hlt j h
  · have : j = i := by omega
    subst this
    simp [hv]

/-- C13: for every document in which the `json` section lacks `created`, or
some `tag-<i>` below the first absent tag lacks `created`, or some `sfd-<i>`
below the first absent descriptor lacks `stream`, or some `stream-<i>` below
the first absent stream lacks `media`, `redis_call_create` returns no call. -/
theorem create_missing_required_field (callid : String) (doc : JsonNode)
    (h : (∃ v, json_reader_read_member doc "json" = some v
            ∧ json_reader_read_member v "created" = none)
      ∨ (∃ i v, (∀ j, j < i → (json_reader_read_member doc (str_sprintf "tag" j)).isSome)
            ∧ json_reader_read_member doc (str_sprintf "tag" i) = some v
            ∧ json_reader_read_member v "created" = none)
      ∨ (∃ i v, (∀ j, j < i → (json_reader_read_member doc (str_sprintf "sfd" j)).isSome)
            ∧ json_reader_read_member doc (str_sprintf "sfd" i) = some v
            ∧ json_reader_read_member v "stream" = none)
      ∨ (∃ i v, (∀ j, j < i → (json_reader_read_member doc (str_sprintf "stream" j)).isSome)
            ∧ json_reader_read_member doc (str_sprintf "stream" i) = some v
            ∧ json_reader_read_member v "media" = none)) :
    ∃ err, redis_call_create callid doc = .ret (.error err) := by
  rcases h with ⟨v, hv, hc⟩ | ⟨i, v, hlt, hv, hc⟩ | ⟨i, v, hlt, hv, hc⟩ | ⟨i, v, hlt, hv, hc⟩
  · unfold redis_call_create
    rw [hv]
    simp only []
    rw [metadata_none callid v (by rw [get_ll_absent v _ hc]; decide)]
    exact ⟨_, rfl⟩
  · apply create_error_of_null
    apply read_media_null_of_tags
    apply read_tags_none_of_probe
    exact seq_probe_fails doc _ _ _ i v (below_of_lt doc _ i v hlt hv) hv
      (tag_create_none i v (by rw [get_ll_absent v _ hc]; decide))
  · apply create_error_of_null
    apply read_media_null_of_streams
    apply read_streams_none_of_fds
    rw [read_stream_fds_eq]
    exact seq_probe_fails doc _ _ _ i v (below_of_lt doc _ i v hlt hv) hv
      (stream_fd_create_none i v (by rw [get_ll_absent v _ hc]; decide))
  · apply create_error_of_null
    apply read_media_null_of_streams
    unfold redis_call_read_streams
    cases redis_call_read_stream_fds doc with
    | none => rfl
    | some sfds =>
      simp only []
      rw [read_streams_probe_eq]
      exact seq_probe_fails doc _ _ _ i v (below_of_lt doc _ i v hlt hv) hv
        (stream_create_none i v sfds (by rw [get_ll_absent v _ hc]; decide))

theorem media_create_isSome (unique_id : Nat) (json : JsonNode)
    (tags : List redis_call_media_tag_t) (streams : List redis_call_media_stream_t)
    (a b recv send : JsonNode)
    (htag : (redis_call_media_create_tag json tags).isSome)
    (hrecv : (redis_call_media_read_payloads recv).value.isSome)
    (hsend : (redis_call_media_read_payloads send).value.isSome) :
    ∃ m, redis_call_media_create unique_id json tags streams a b recv send = .ret (some m) := by
  obtain ⟨t, ht⟩ := Option.isSome_iff_exists.mp htag
  obtain ⟨r, hr⟩ := value_isSome _ hrecv
  obtain ⟨s, hs⟩ := value_isSome _ hsend
  simp [redis_call_media_create, ht, hr, hs]

/-- C11 (as amended): for every document with a `json` section that has a
non-negative `created`, whose tags and streams can be read, and in which
`media-0` .. `media-(k-1)` are present and well-formed (the tag index, if any,
names a tag, and both payload tables parse) together with their four companion
documents while `media-<k>` is absent, `redis_call_create` returns a call with
exactly `k` media, the i-th with `unique_id` i, whatever `media-<j>` or
companion documents with `j >= k` the document has. -/
theorem create_media_sequential_probe (callid : String) (doc : JsonNode)
    (tags : List redis_call_media_tag_t) (streams : List redis_call_media_stream_t) (k : Nat)
    (hjson : ∃ v, json_reader_read_member doc "json" = some v
      ∧ 0 ≤ json_reader_get_ll v "created")
    (htags : redis_call_read_tags doc = some tags)
    (hstreams : redis_call_read_streams doc = some streams)
    (habsent : json_reader_read_member doc (str_sprintf "media" k) = none)
    (hpresent : ∀ i, i < k → ∃ v a b recv send,
      json_reader_read_member doc (str_sprintf "media" i) = some v
      ∧ json_reader_get_node doc (str_sprintf "streams" i) = some a
      ∧ json_reader_get_node doc (str_sprintf "maps" i) = some b
      ∧ json_reader_get_node doc (str_sprintf "payload_types" i) = some recv
      ∧ json_reader_get_node doc (str_sprintf "payload_types_send" i) = some send
      ∧ (redis_call_media_create_tag v tags).isSome
      ∧ (redis_call_media_read_payloads recv).value.isSome
      ∧ (redis_call_media_read_payloads send).value.isSome) :
    ∃ callref call_media, redis_call_create callid doc = .ret (.ok callref)
      ∧ callref.media = .live call_media
      ∧ call_media.length = k
      ∧ call_media.map (fun m => m.unique_id) = List.range k := by
  have hk : k ≤ doc.size := by
    apply present_le_size doc (str_sprintf "media") (str_sprintf_injective "media") k
    intro i hi
    obtain ⟨v, _, _, _, _, hv, _⟩ := hpresent i hi
    simp [hv]
  obtain ⟨q, hq, hlen⟩ := seq_probe_succeeds doc (str_sprintf "media")
    (media_entry doc tags streams) (doc.size + 1) 0 [] k (by omega)
    (by simpa using habsent)
    (fun i hi => by
      obtain ⟨v, a, b, recv, send, hv, ha, hb, hr, hs, h1, h2, h3⟩ := hpresent i hi
      refine ⟨v, by simpa using hv, ?_⟩
      simp only [Nat.zero_add, media_entry, ha, hb, hr, hs]
      obtain ⟨m, hm⟩ := media_create_isSome i v tags streams a b recv send h1 h2 h3
      rw [hm]
      rfl)
  simp only [List.nil_append] at hq
  have hmedia : redis_call_read_media doc = .ret (.live q) := by
    unfold redis_call_read_media
    rw [htags, hstreams]
    simp only []
    rw [← read_media_probe_eq, value_eq_some] at hq
    rw [hq]
  obtain ⟨v, hv, hc⟩ := hjson
  obtain ⟨c, hcall⟩ := Option.isSome_iff_exists.mp (by
    unfold redis_call_create_from_metadata JSON_UPDATE_NUM_FIELD_IF_SET_OR_FAIL_ulong
    simp only [ge_iff_le, hc, if_true]
    rfl : (redis_call_create_from_metadata callid v).isSome)
  refine ⟨{ c with media := .live q }, q, ?_, rfl, hlen, ?_⟩
  · unfold redis_call_create
    rw [hv]
    simp only []
    rw [hcall]
    simp only [hmedia]
  · have := list_eq_map_range (q.map (fun m => m.unique_id)) (fun i => i)
      (fun i x hx => by
        rw [List.getElem?_map] at hx
        cases hm : q[i]? with
        | none => rw [hm] at hx; simp at hx
        | some m =>
          rw [hm] at hx
          simp only [Option.map_some', Option.some.injEq] at hx
          rw [← hx]
          exact (call_media_spec _ _ _ _ _ hq i m hm).1)
    rw [List.length_map, hlen] at this
    simpa using this

/-! ## Properties of the media, tag and stream builders -/

theorem media_create_tag_index (json : JsonNode) (tags : List redis_call_media_tag_t) (t : Nat)
    (ht : json_reader_get_ll json "tag" = (t : Int)) (ht32 : t < 4294967296) :
    redis_call_media_create_tag json tags = (tags[t]?).map some := by
  unfold redis_call_media_create_tag
  simp only [ht, ge_iff_le, Int.natCast_nonneg, if_true, g_queue_peek_nth,
    to_unsigned_of_lt t ht32]
  cases tags[t]? <;> rfl

theorem media_create_tag_absent (json : JsonNode) (tags : List redis_call_media_tag_t)
    (h : json_reader_read_member json "tag" = none) :
    redis_call_media_create_tag json tags = some none := by
  unfold redis_call_media_create_tag
  simp only [json_reader_get_ll, h, ge_iff_le]
  rfl

theorem media_create_none_of_tag (unique_id : Nat) (json : JsonNode)
    (tags : List redis_call_media_tag_t) (streams : List redis_call_media_stream_t)
    (a b recv send : JsonNode) (h : redis_call_media_create_tag json tags = none) :
    redis_call_media_create unique_id json tags streams a b recv send = .ret none := by
  unfold redis_call_media_create
  rw [h]

/-- C14 (as amended): for every tag list and every media sub-document whose
`tag` field holds an index `t` with `0 <= t < 2^32`, `redis_call_media_create`
returns no media when `t` is not less than the number of tags, and, when `t` is
less than the number of tags and both payload tables parse, returns a media
with exactly the tag at position `t`; when `tag` is absent and both payload
tables parse the media is built with no tag. -/
theorem media_create_tag_resolution (unique_id : Nat) (json : JsonNode)
    (tags : List redis_call_media_tag_t) (streams : List redis_call_media_stream_t)
    (a b recv send : JsonNode) :
    (∀ t : Nat, json_reader_get_ll json "tag" = (t : Int) → t < 4294967296 →
        (tags.length ≤ t →
          redis_call_media_create unique_id json tags streams a b recv send = .ret none)
        ∧ (t < tags.length → (redis_call_media_read_payloads recv).value.isSome →
            (redis_call_media_read_payloads send).value.isSome →
            ∃ m, redis_call_media_create unique_id json tags streams a b recv send
                = .ret (some m)
              ∧ m.tag = tags[t]? ∧ m.tag ≠ none))
    ∧ (json_reader_read_member json "tag" = none →
        (redis_call_media_read_payloads recv).value.isSome →
        (redis_call_media_read_payloads send).value.isSome →
        ∃ m, redis_call_media_create unique_id json tags streams a b recv send
            = .ret (some m)
          ∧ m.tag = none) := by
  refine ⟨fun t ht ht32 => ⟨fun hge => ?_, fun hlt hr hs => ?_⟩, fun habs hr hs => ?_⟩
  · apply media_create_none_of_tag
    rw [media_create_tag_index json tags t ht ht32, List.getElem?_eq_none hge]
    rfl
  · have htag := media_create_tag_index json tags t ht ht32
    rw [List.getElem?_eq_getElem hlt] at htag
    obtain ⟨m, hm⟩ := media_create_isSome unique_id json tags streams a b recv send
      (by rw [htag]; rfl) hr hs
    have h3 := (media_create_some _ _ _ _ _ _ _ _ _ hm).2.2.1
    rw [htag] at h3
    simp only [Option.map_some', Option.some.injEq] at h3
    refine ⟨m, hm, ?_, ?_⟩
    · rw [← h3, List.getElem?_eq_getElem hlt]
    · rw [← h3]; simp
  · have htag := media_create_tag_absent json tags habs
    obtain ⟨m, hm⟩ := media_create_isSome unique_id json tags streams a b recv send
      (by rw [htag]; rfl) hr hs
    have h3 := (media_create_some _ _ _ _ _ _ _ _ _ hm).2.2.1
    rw [htag] at h3
    simp only [Option.some.injEq] at h3
    exact ⟨m, hm, h3.symm⟩

/-- C16: for every media that `redis_call_media_create` builds with
`unique_id` u against a flat stream list, the `streams` of the media are
exactly the streams of the flat list whose `media_unique_id` equals u, in the
order of the flat list. -/
theorem media_create_streams_join (unique_id : Nat) (json : JsonNode)
    (tags : List redis_call_media_tag_t) (streams : List redis_call_media_stream_t)
    (a b recv send : JsonNode) (m : redis_call_media_t)
    (h : redis_call_media_create unique_id json tags streams a b recv send = .ret (some m)) :
    m.unique_id = unique_id
      ∧ m.streams = streams.filter (fun s => decide (s.media_unique_id = unique_id)) := by
  have := media_create_some _ _ _ _ _ _ _ _ _ h
  exact ⟨this.1, this.2.1⟩

theorem media_create_payload_outcomes (unique_id : Nat) (json : JsonNode)
    (tags : List redis_call_media_tag_t) (streams : List redis_call_media_stream_t)
    (a b recv send : JsonNode) (tag : Option redis_call_media_tag_t)
    (htag : redis_call_media_create_tag json tags = some tag) :
    (redis_call_media_read_payloads recv = .crash →
        redis_call_media_create unique_id json tags streams a b recv send = .crash)
    ∧ (redis_call_media_read_payloads recv = .ret none →
        redis_call_media_create unique_id json tags streams a b recv send = .ret none)
    ∧ (∀ r, redis_call_media_read_payloads recv = .ret (some r) →
        (redis_call_media_read_payloads send = .crash →
          redis_call_media_create unique_id json tags streams a b recv send = .crash)
        ∧ (redis_call_media_read_payloads send = .ret none →
          redis_call_media_create unique_id json tags streams a b recv send = .ret none)
        ∧ (∀ t, redis_call_media_read_payloads send = .ret (some t) →
          ∃ m, redis_call_media_create unique_id json tags streams a b recv send
              = .ret (some m)
            ∧ m.codec_prefs_recv = r ∧ m.codec_prefs_send = t)) := by
  refine ⟨fun h => ?_, fun h => ?_, fun r h => ⟨fun h2 => ?_, fun h2 => ?_, fun t h2 => ?_⟩⟩
  · simp only [redis_call_media_create, htag, h]
  · simp only [redis_call_media_create, htag, h]
  · simp only [redis_call_media_create, htag, h, h2]
  · simp only [redis_call_media_create, htag, h, h2]
  · simp only [redis_call_media_create, htag, h, h2]
    exact ⟨_, rfl, rfl, rfl⟩

/-- C17 does not hold of the code.  On a media whose `payload_types` document
is the array `[5]` and whose `payload_types_send` document is `["PCMU"]`, the
send table fails to parse (`redis_call_media_read_payloads` returns `NULL` for
it), yet `redis_call_media_create` does not return "no media": the element 5 of
the receive document is not a string, `json_reader_get_str_element` gives
`NULL` for it, and that `NULL` is passed to `str_token` without a test, so the
call, and with it `redis_call_create` on the whole document, does not return. -/
theorem media_create_non_string_payload_crashes :
    redis_call_media_read_payloads (payload_list ["PCMU"]) = .ret none
      ∧ json_reader_get_str_element (.array [.int 5]) 0 = none
      ∧ redis_call_media_read_payloads (.array [.int 5]) = .crash
      ∧ redis_call_media_create 0 (int_fields [("index", 1)]) [] [] (.array []) (.array [])
          (.array [.int 5]) (payload_list ["PCMU"]) = .crash
      ∧ redis_call_media_create 0 (int_fields [("index", 1)]) [] [] (.array []) (.array [])
          (.array [.int 5]) (payload_list ["PCMU"]) ≠ .ret none
      ∧ json_reader_get_node doc_number_payload (str_sprintf "payload_types" 0)
          = some (.array [.int 5])
      ∧ json_reader_get_node doc_number_payload (str_sprintf "payload_types_send" 0)
          = some (payload_list ["PCMU"])
      ∧ redis_call_create "call" doc_number_payload = .crash :=
  ⟨rfl, rfl, rfl, rfl, by
    rw [show redis_call_media_create 0 (int_fields [("index", 1)]) [] [] (.array [])
      (.array []) (.array [.int 5]) (payload_list ["PCMU"]) = .crash from rfl]
    exact fun h => outcome.noConfusion h,
    rfl, rfl, rfl⟩

theorem bool_field_spec (reader : JsonNode) (key : String) :
    JSON_UPDATE_BOOL_FIELD_IF_SET reader key false = true
      ↔ ∃ x : Int, json_reader_read_member reader key = some (.int x) ∧ 0 < x := by
  unfold JSON_UPDATE_BOOL_FIELD_IF_SET json_reader_get_ll
  cases h : json_reader_read_member reader key with
  | none => simp
  | some v =>
    cases v with
    | int x =>
      simp only [ge_iff_le, ne_eq, ite_not, Option.some.injEq, JsonNode.int.injEq,
        exists_eq_left']
      by_cases h0 : 0 ≤ x
      · by_cases h1 : x = 0
        · simp [h1]
        · simp only [h0, if_true, h1, if_false, true_iff]; omega
      · simp only [h0, if_false, Bool.false_eq_true, false_iff]; omega
    | _ => simp

/-- C19: for every tag sub-document with a non-negative `created`,
`redis_call_media_tag_create` succeeds whatever optional fields are missing,
and each of `active`, `deleted`, `block_dtmf` and `block_media` is true exactly
when its field is present with a positive value (and so false when the field
is absent or 0). -/
theorem tag_create_optional_fields (unique_id : Nat) (json : JsonNode)
    (h : 0 ≤ json_reader_get_ll json "created") :
    ∃ t, redis_call_media_tag_create unique_id json = some t
      ∧ (t.active = true
          ↔ ∃ x : Int, json_reader_read_member json "active" = some (.int x) ∧ 0 < x)
      ∧ (t.deleted = true
          ↔ ∃ x : Int, json_reader_read_member json "deleted" = some (.int x) ∧ 0 < x)
      ∧ (t.block_dtmf = true
          ↔ ∃ x : Int, json_reader_read_member json "block_dtmf" = some (.int x) ∧ 0 < x)
      ∧ (t.block_media = true
          ↔ ∃ x : Int, json_reader_read_member json "block_media" = some (.int x) ∧ 0 < x) := by
  obtain ⟨t, ht⟩ := Option.isSome_iff_exists.mp (tag_create_isSome unique_id json h)
  refine ⟨t, ht, ?_⟩
  unfold redis_call_media_tag_create JSON_UPDATE_NUM_FIELD_IF_SET_OR_FAIL_ulong at ht
  simp only [ge_iff_le, h, if_true, Option.some.injEq] at ht
  subst ht
  exact ⟨bool_field_spec json "active", bool_field_spec json "deleted",
    bool_field_spec json "block_dtmf", bool_field_spec json "block_media"⟩

theorem signed_field_range (reader : JsonNode) (key : String) :
    -1 ≤ JSON_UPDATE_SIGNED_NUM_FIELD_IF_SET reader key 0
      ∧ JSON_UPDATE_SIGNED_NUM_FIELD_IF_SET reader key 0 ≤ 999 := by
  unfold JSON_UPDATE_SIGNED_NUM_FIELD_IF_SET
  simp only [ge_iff_le]
  split
  · split <;> omega
  · omega

/-- C20: in every stream that `redis_call_media_stream_create` returns, on
every input document, each of `rtp_sink`, `rtcp_sink` and `rtcp_sibling` lies
between -1 and 999. -/
theorem stream_create_capped_range (unique_id : Nat) (json : JsonNode)
    (sfds : List redis_call_media_stream_fd_t) (s : redis_call_media_stream_t)
    (h : redis_call_media_stream_create unique_id json sfds = some s) :
    (-1 ≤ s.rtp_sink ∧ s.rtp_sink ≤ 999)
      ∧ (-1 ≤ s.rtcp_sink ∧ s.rtcp_sink ≤ 999)
      ∧ (-1 ≤ s.rtcp_sibling ∧ s.rtcp_sibling ≤ 999) := by
  unfold redis_call_media_stream_create at h
  cases hm : JSON_UPDATE_NUM_FIELD_IF_SET_OR_FAIL json "media" with
  | none => rw [hm] at h; exact absurd h (by simp)
  | some m =>
    rw [hm] at h
    simp only [Option.some.injEq] at h
    subst h
    exact ⟨signed_field_range json "rtp_sink", signed_field_range json "rtcp_sink",
      signed_field_range json "rtcp_sibling"⟩

/-! ## The scan of the partner lists -/

theorem match_tags_loop_inv (tag : Nat) (reader : JsonNode) (num : Nat) :
    ∀ (r : Nat) (ts out : List redis_call_media_tag_t), r ≤ num →
      redis_call_match_tags_loop tag reader num r ts = some out →
      ∀ idx, num - r ≤ idx → idx < num → other_tagid reader idx < ts.length := by
  intro r
  induction r with
  | zero => intro ts out _ _ idx h1 h2; omega
  | succ r ih =>
    intro ts out hr h idx h1 h2
    simp only [redis_call_match_tags_loop] at h
    cases hq : g_queue_peek_nth ts (to_unsigned (json_reader_get_ll_element reader (num - (r + 1))))
      with
    | none => rw [hq] at h; simp at h
    | some t =>
      rw [hq] at h
      simp only [] at h
      by_cases hidx : idx = num - (r + 1)
      · subst hidx
        unfold other_tagid
        simp only [g_queue_peek_nth] at hq
        rcases Nat.lt_or_ge (to_unsigned (json_reader_get_ll_element reader (num - (r + 1))))
          ts.length with hlt | hge
        · exact hlt
        · rw [List.getElem?_eq_none hge] at hq; exact absurd hq (by simp)
      · have := ih _ _ (by omega) h idx (by omega) h2
        rw [set_other_tag_length, set_other_tag_length] at this
        exact this

theorem match_tags_some (tag : Nat) (ts out : List redis_call_media_tag_t) (v : JsonNode)
    (h : redis_call_match_tags tag ts v = some out) :
    json_reader_is_array v = true
      ∧ (∀ idx, idx < num_others v → other_tagid v idx < ts.length)
      ∧ out.length = ts.length := by
  unfold redis_call_match_tags at h
  split at h
  · rename_i harr
    refine ⟨harr, ?_, ?_⟩
    · intro idx hidx
      exact match_tags_loop_inv tag v (num_others v) (num_others v) ts out (le_refl _) h idx
        (by omega) hidx
    · have := match_tags_loop_ids _ _ _ _ _ _ h
      rw [← tag_ids_length, this, tag_ids_length]
  · simp at h

theorem read_tags_others_inv (reader : JsonNode) (k : Nat) :
    ∀ (r : Nat) (ts out : List redis_call_media_tag_t), ts.length = k → r ≤ k →
      redis_call_read_tags_others reader k r ts = some out →
      ∀ i, k - r ≤ i → i < k → ∀ v,
        json_reader_read_member reader (str_sprintf "other_tags" i) = some v →
          json_reader_is_array v = true ∧ ∀ idx, idx < num_others v → other_tagid v idx < k := by
  intro r
  induction r with
  | zero => intro ts out _ _ _ i h1 h2; omega
  | succ r ih =>
    intro ts out hlen hr h i h1 h2 v hv
    simp only [redis_call_read_tags_others] at h
    cases hm : json_reader_read_member reader (str_sprintf "other_tags" (k - (r + 1))) with
    | none =>
      rw [hm] at h
      by_cases hi : i = k - (r + 1)
      · subst hi; rw [hm] at hv; simp at hv
      · exact ih ts out hlen (by omega) h i (by omega) h2 v hv
    | some v0 =>
      rw [hm] at h
      simp only [] at h
      cases hq : g_queue_peek_nth ts (k - (r + 1)) with
      | none => rw [hq] at h; simp at h
      | some t =>
        rw [hq] at h
        simp only [] at h
        cases hmt : redis_call_match_tags (k - (r + 1)) ts v0 with
        | none => rw [hmt] at h; simp at h
        | some ts1 =>
          rw [hmt] at h
          simp only [] at h
          obtain ⟨harr, hidx, hlen1⟩ := match_tags_some _ _ _ _ hmt
          by_cases hi : i = k - (r + 1)
          · subst hi
            rw [hm] at hv
            simp only [Option.some.injEq] at hv
            subst hv
            rw [hlen] at hidx
            exact ⟨harr, hidx⟩
          · exact ih ts1 out (by rw [hlen1, hlen]) (by omega) h i (by omega) h2 v hv

/-- C15 (as amended): for every document with `k` tags (`tag-<k>` is the first
absent tag) in which some `other_tags-<i>` with `i < k` is present and is not
an array, or lists an index `j` with `k <= j < 2^32`, `redis_call_read_tags`
returns no tag list and `redis_call_create` returns no call. -/
theorem read_tags_dangling_partner (callid : String) (doc : JsonNode) (k i : Nat) (v : JsonNode)
    (habsent : json_reader_read_member doc (str_sprintf "tag" k) = none)
    (hpresent : ∀ j, j < k → (json_reader_read_member doc (str_sprintf "tag" j)).isSome)
    (hi : i < k)
    (hv : json_reader_read_member doc (str_sprintf "other_tags" i) = some v)
    (hbad : json_reader_is_array v = false
      ∨ ∃ idx j : Nat, idx < num_others v ∧ json_reader_get_ll_element v idx = (j : Int)
          ∧ k ≤ j ∧ j < 4294967296) :
    redis_call_read_tags doc = none
      ∧ ∃ err, redis_call_create callid doc = .ret (.error err) := by
  have hnone : redis_call_read_tags doc = none := by
    cases hread : redis_call_read_tags doc with
    | none => rfl
    | some tags =>
      obtain ⟨tags0, hprobe, hothers, _⟩ := read_tags_some doc tags hread
      obtain ⟨h1, h2, _⟩ := seq_probe_some_root _ _ _ _ _ hprobe
      have hlen : tags0.length = k :=
        seq_probe_length_unique doc (str_sprintf "tag") _ _ h1 h2 habsent hpresent
      rw [hlen] at hothers
      obtain ⟨harr, hidx⟩ := read_tags_others_inv doc k k tags0 tags hlen (le_refl _) hothers i
        (by omega) hi v hv
      rcases hbad with hb | ⟨idx, j, hlt, hj, hkj, hj32⟩
      · rw [harr] at hb; simp at hb
      · have := hidx idx hlt
        unfold other_tagid at this
        rw [hj, to_unsigned_of_lt j hj32] at this
        omega
  refine ⟨hnone, ?_⟩
  apply create_error_of_null
  unfold redis_call_read_media
  rw [hnone]

theorem match_tags_empty (tag : Nat) (ts : List redis_call_media_tag_t) :
    redis_call_match_tags tag ts (.array []) = some ts := rfl

theorem read_tags_others_scan (doc : JsonNode) (k : Nat) :
    ∀ (r : Nat) (ts : List redis_call_media_tag_t), ts.length = k → r ≤ k →
      redis_call_read_tags_others doc k r ts = other_tags_scan doc (List.range' (k - r) r) ts := by
  intro r
  induction r with
  | zero => intro ts _ _; rfl
  | succ r ih =>
    intro ts hlen hr
    have e : k - (r + 1) + 1 = k - r := by omega
    simp only [redis_call_read_tags_others, List.range', other_tags_scan]
    cases hm : json_reader_read_member doc (str_sprintf "other_tags" (k - (r + 1))) with
    | none =>
      simp only [Option.getD_none, match_tags_empty]
      rw [ih ts hlen (by omega), e]
    | some v =>
      simp only [Option.getD_some, g_queue_peek_nth,
        List.getElem?_eq_getElem (by omega : k - (r + 1) < ts.length)]
      cases hmt : redis_call_match_tags (k - (r + 1)) ts v with
      | none => rfl
      | some ts1 =>
        simp only []
        rw [ih ts1 (by rw [(match_tags_some _ _ _ _ hmt).2.2, hlen]) (by omega), e]

theorem other_tags_scan_congr (doc doc2 : JsonNode) :
    ∀ (idxs : List Nat) (ts : List redis_call_media_tag_t),
      (∀ i ∈ idxs, json_reader_read_member doc2 (str_sprintf "other_tags" i)
        = json_reader_read_member doc (str_sprintf "other_tags" i)) →
      other_tags_scan doc2 idxs ts = other_tags_scan doc idxs ts := by
  intro idxs
  induction idxs with
  | nil => intro ts _; rfl
  | cons i idxs ih =>
    intro ts h
    simp only [other_tags_scan, h i (List.mem_cons_self _ _)]
    cases redis_call_match_tags i ts
        ((json_reader_read_member doc (str_sprintf "other_tags" i)).getD (.array [])) with
    | none => rfl
    | some ts1 => exact ih ts1 (fun j hj => h j (List.mem_cons_of_mem _ hj))

theorem read_tags_of_probe (doc : JsonNode) (k : Nat) (tags0 : List redis_call_media_tag_t)
    (hprobe : redis_call_read_tags_probe doc (doc.size + 1) 0 [] = some (k, tags0)) :
    tags0.length = k
      ∧ redis_call_read_tags doc = other_tags_scan doc (List.range k) tags0 := by
  have hn := read_tags_probe_idx doc _ _ _ _ _ hprobe
  simp only [List.length_nil, Nat.add_zero, Nat.zero_add] at hn
  refine ⟨hn.symm, ?_⟩
  unfold redis_call_read_tags
  rw [hprobe]
  simp only []
  rw [read_tags_others_scan doc k k tags0 hn.symm (le_refl _), Nat.sub_self,
    List.range_eq_range']

theorem probe_other_tag_none (reader : JsonNode) (fuel : Nat)
    (tags0 : List redis_call_media_tag_t)
    (h : seq_probe reader (str_sprintf "tag") redis_call_media_tag_create fuel 0 [] = some tags0)
    (p : Nat) : other_tag_of tags0 p = none := by
  obtain ⟨_, _, h3⟩ := seq_probe_some_root _ _ _ _ _ h
  unfold other_tag_of
  cases hp : tags0[p]? with
  | none => rfl
  | some t =>
    obtain ⟨v, _, hv⟩ := h3 p t hp
    exact (tag_create_some _ _ _ hv).2

/-- C18: with `k` tags found, `redis_call_read_tags` applies exactly the lists
`other_tags-0` .. `other_tags-(k-1)`, in this order, an absent list counting as
an empty one that neither fails nor ends the scan; the result does not depend
on any `other_tags-<j>` with `j >= k`; and a tag that no consulted list pairs
has no partner. -/
theorem read_tags_others_bounded (doc : JsonNode) (k : Nat)
    (tags0 : List redis_call_media_tag_t)
    (hprobe : redis_call_read_tags_probe doc (doc.size + 1) 0 [] = some (k, tags0)) :
    tags0.length = k
      ∧ redis_call_read_tags doc = other_tags_scan doc (List.range k) tags0
      ∧ (∀ doc2, redis_call_read_tags_probe doc2 (doc2.size + 1) 0 [] = some (k, tags0) →
          (∀ i, i < k → json_reader_read_member doc2 (str_sprintf "other_tags" i)
            = json_reader_read_member doc (str_sprintf "other_tags" i)) →
          redis_call_read_tags doc2 = redis_call_read_tags doc)
      ∧ (∀ tags p, redis_call_read_tags doc = some tags →
          (∀ i, i < k → ∀ v,
            json_reader_read_member doc (str_sprintf "other_tags" i) = some v →
              ∀ idx, idx < num_others v → i ≠ p ∧ other_tagid v idx ≠ p) →
          other_tag_of tags p = none) := by
  obtain ⟨hlen, hscan⟩ := read_tags_of_probe doc k tags0 hprobe
  refine ⟨hlen, hscan, ?_, ?_⟩
  · intro doc2 hprobe2 hsame
    rw [hscan, (read_tags_of_probe doc2 k tags0 hprobe2).2]
    exact other_tags_scan_congr doc doc2 _ _
      (fun i hi => hsame i (List.mem_range.mp hi))
  · intro tags p hread hfree
    obtain ⟨tags1, hp1, hothers, _⟩ := read_tags_some doc tags hread
    have hs := read_tags_probe_snd doc (doc.size + 1) 0 []
    rw [hprobe, hp1] at hs
    simp only [Option.map_some', Option.some.injEq] at hs
    subst hs
    rw [read_tags_others_frame doc tags0.length p tags0.length tags0 tags (le_refl _)
      (fun i _ h2 v hv idx hidx => hfree i (by omega) v hv idx hidx) hothers]
    exact probe_other_tag_none doc _ tags0 hp1 p

/-! ## Instances -/

/-- Instance of C11 as amended: the sample document with `media-0` and
`media-1` gives a call with exactly 2 media, with `unique_id` 0 and 1. -/
theorem create_media_sequential_probe_witness :
    ∃ callref call_media, redis_call_create "call" doc_two_media = .ret (.ok callref)
      ∧ callref.media = .live call_media
      ∧ call_media.length = 2
      ∧ call_media.map (fun m => m.unique_id) = List.range 2 :=
  create_media_sequential_probe "call" doc_two_media _ _ 2
    ⟨_, rfl, by decide⟩ rfl rfl rfl
    (fun i hi => by
      interval_cases i
      · exact ⟨_, _, _, _, _, rfl, rfl, rfl, rfl, rfl, rfl, rfl, rfl⟩
      · exact ⟨_, _, _, _, _, rfl, rfl, rfl, rfl, rfl, rfl, rfl, rfl⟩)

/-- C11 (as stated) fails: `media-0` is present and well-formed with its four
companion documents and `media-1` is absent, but the document has no `json`
section and `redis_call_create` returns no call. -/
theorem create_media_without_json_fails :
    json_reader_read_member doc_media_without_json (str_sprintf "media" 1) = none
      ∧ (∃ v a b recv send,
          json_reader_read_member doc_media_without_json (str_sprintf "media" 0) = some v
          ∧ json_reader_get_node doc_media_without_json (str_sprintf "streams" 0) = some a
          ∧ json_reader_get_node doc_media_without_json (str_sprintf "maps" 0) = some b
          ∧ json_reader_get_node doc_media_without_json (str_sprintf "payload_types" 0)
              = some recv
          ∧ json_reader_get_node doc_media_without_json (str_sprintf "payload_types_send" 0)
              = some send
          ∧ (redis_call_media_create 0 v [] [] a b recv send).value.isSome)
      ∧ redis_call_create "call" doc_media_without_json = .ret (.error "Could not find call data") :=
  ⟨rfl, ⟨_, _, _, _, _, rfl, rfl, rfl, rfl, rfl, rfl⟩, rfl⟩

/-- Instance of C12: a document with a media but no `json` section gives
"Could not find call data". -/
theorem create_missing_root_section_witness :
    redis_call_create "call" doc_media_without_json = .ret (.error "Could not find call data") :=
  (create_missing_root_section "call" doc_media_without_json rfl).1

/-- Instance of C13: a document whose `stream-0` has no `media` gives no
call. -/
theorem create_missing_required_field_witness :
    json_reader_read_member (int_fields [("sfd", 0)]) "media" = none
      ∧ ∃ err, redis_call_create "call" doc_stream_without_media = .ret (.error err) :=
  ⟨rfl, create_missing_required_field "call" doc_stream_without_media
    (Or.inr (Or.inr (Or.inr ⟨0, int_fields [("sfd", 0)],
      fun j hj => absurd hj (Nat.not_lt_zero j), rfl, rfl⟩)))⟩

/-- C14 (as stated) fails: the tag index is passed to `g_queue_peek_nth` as
an `unsigned`, so with one tag the index 4294967296 resolves to the tag at
position 0 and the media is built; and with a tag index in range but a payload
table that does not parse, no media is built. -/
theorem media_create_tag_index_wraps :
    (∃ m, redis_call_media_create 0 (int_fields [("tag", 4294967296)]) [sample_tag 0] []
        (.array []) (.array []) (payload_list ["0/PCMU"]) (payload_list ["0/PCMU"]) = .ret (some m)
      ∧ m.tag = some (sample_tag 0))
    ∧ redis_call_media_create 0 (int_fields [("tag", 0)]) [sample_tag 0] []
        (.array []) (.array []) (payload_list ["PCMU"]) (payload_list ["0/PCMU"]) = .ret none :=
  ⟨⟨_, rfl, rfl⟩, rfl⟩

/-- Instance of C14 as amended: with two tags, index 1 attaches the tag at
position 1, index 2 gives no media, and no `tag` field gives a media without
tag. -/
theorem media_create_tag_resolution_witness :
    (∃ m, redis_call_media_create 0 (int_fields [("tag", 1)]) [sample_tag 0, sample_tag 1] []
        (.array []) (.array []) (payload_list ["0/PCMU"]) (payload_list ["0/PCMU"]) = .ret (some m)
      ∧ m.tag = [sample_tag 0, sample_tag 1][1]? ∧ m.tag ≠ none)
    ∧ redis_call_media_create 0 (int_fields [("tag", 2)]) [sample_tag 0, sample_tag 1] []
        (.array []) (.array []) (payload_list ["0/PCMU"]) (payload_list ["0/PCMU"]) = .ret none
    ∧ (∃ m, redis_call_media_create 0 (int_fields [("index", 1)])
        [sample_tag 0, sample_tag 1] []
        (.array []) (.array []) (payload_list ["0/PCMU"]) (payload_list ["0/PCMU"]) = .ret (some m)
      ∧ m.tag = none) :=
  ⟨((media_create_tag_resolution 0 (int_fields [("tag", 1)]) [sample_tag 0, sample_tag 1] []
      (.array []) (.array []) (payload_list ["0/PCMU"]) (payload_list ["0/PCMU"])).1
      1 rfl (by decide)).2 (by decide) rfl rfl,
   ((media_create_tag_resolution 0 (int_fields [("tag", 2)]) [sample_tag 0, sample_tag 1] []
      (.array []) (.array []) (payload_list ["0/PCMU"]) (payload_list ["0/PCMU"])).1
      2 rfl (by decide)).1 (by decide),
   (media_create_tag_resolution 0 (int_fields [("index", 1)]) [sample_tag 0, sample_tag 1] []
      (.array []) (.array []) (payload_list ["0/PCMU"]) (payload_list ["0/PCMU"])).2
      rfl rfl rfl⟩

/-- Instance of C15 as amended: one tag and `other_tags-0 = [5]` give no tag
list and no call. -/
theorem read_tags_dangling_partner_witness :
    redis_call_read_tags doc_dangling_partner = none
      ∧ ∃ err, redis_call_create "call" doc_dangling_partner = .ret (.error err) :=
  read_tags_dangling_partner "call" doc_dangling_partner 1 0 (.array [.int 5]) rfl
    (fun j hj => by
      have : j = 0 := by omega
      subst this
      rfl)
    (by decide) rfl
    (Or.inr ⟨0, 5, by decide, rfl, by decide, by decide⟩)

/-- C15 (as stated) fails: the index is read into an `unsigned`, so with one
tag the list `other_tags-0 = [4294967296]`, whose index is not less than the
number of tags, is accepted and pairs tag 0 with itself. -/
theorem read_tags_partner_index_wraps :
    json_reader_read_member doc_wide_partner (str_sprintf "other_tags" 0)
        = some (.array [.int 4294967296])
      ∧ (redis_call_read_tags doc_wide_partner).map
          (fun tags => (tags.length, other_tag_of tags 0)) = some (1, some 0) :=
  ⟨rfl, by decide⟩

/-- Instance of C16: against the streams 0, 1, 2 that name the media 0, 1, 0,
the media 0 gets the streams 0 and 2. -/
theorem media_create_streams_join_witness :
    ∃ m, redis_call_media_create 0 (int_fields [("index", 1)]) []
        [sample_stream 0 0, sample_stream 1 1, sample_stream 2 0]
        (.array []) (.array []) (payload_list ["0/PCMU"]) (payload_list ["0/PCMU"]) = .ret (some m)
      ∧ m.streams = [sample_stream 0 0, sample_stream 2 0] :=
  ⟨_, rfl,
    (media_create_streams_join 0 (int_fields [("index", 1)]) []
      [sample_stream 0 0, sample_stream 1 1, sample_stream 2 0]
      (.array []) (.array []) (payload_list ["0/PCMU"]) (payload_list ["0/PCMU"]) _ rfl).2⟩

/-- Instance of C18: with three tags, no `other_tags-0`, `other_tags-1 = [2]`
and `other_tags-5 = [0]`, the tags 1 and 2 are paired and tag 0 has no
partner. -/
theorem read_tags_others_bounded_witness :
    ∃ tags, redis_call_read_tags doc_unpaired_tag = some tags
      ∧ other_tag_of tags 0 = none
      ∧ other_tag_of tags 1 = some 2 ∧ other_tag_of tags 2 = some 1 :=
  ⟨_, rfl,
    (read_tags_others_bounded doc_unpaired_tag 3 _ rfl).2.2.2 _ 0 rfl
      (fun i hi v hv idx hidx => by
        interval_cases i
        · have e : json_reader_read_member doc_unpaired_tag (str_sprintf "other_tags" 0)
              = none := rfl
          rw [e] at hv
          cases hv
        · have e : json_reader_read_member doc_unpaired_tag (str_sprintf "other_tags" 1)
              = some (.array [.int 2]) := rfl
          rw [e] at hv
          cases hv
          have h1 : num_others (.array [.int 2]) = 1 := rfl
          rw [h1] at hidx
          interval_cases idx
          decide
        · have e : json_reader_read_member doc_unpaired_tag (str_sprintf "other_tags" 2)
              = none := rfl
          rw [e] at hv
          cases hv),
    rfl, rfl⟩

/-- Instance of C19: a tag document with `created`, `active` 1 and `deleted`
0 and no other field gives a tag, whose flags follow the fields. -/
theorem tag_create_optional_fields_witness :
    ∃ t, redis_call_media_tag_create 0
        (int_fields [("created", 10), ("active", 1), ("deleted", 0)]) = some t
      ∧ (t.active = true
          ↔ ∃ x : Int, json_reader_read_member
              (int_fields [("created", 10), ("active", 1), ("deleted", 0)]) "active"
                = some (.int x) ∧ 0 < x)
      ∧ (t.deleted = true
          ↔ ∃ x : Int, json_reader_read_member
              (int_fields [("created", 10), ("active", 1), ("deleted", 0)]) "deleted"
                = some (.int x) ∧ 0 < x)
      ∧ (t.block_dtmf = true
          ↔ ∃ x : Int, json_reader_read_member
              (int_fields [("created", 10), ("active", 1), ("deleted", 0)]) "block_dtmf"
                = some (.int x) ∧ 0 < x)
      ∧ (t.block_media = true
          ↔ ∃ x : Int, json_reader_read_member
              (int_fields [("created", 10), ("active", 1), ("deleted", 0)]) "block_media"
                = some (.int x) ∧ 0 < x) :=
  tag_create_optional_fields 0 (int_fields [("created", 10), ("active", 1), ("deleted", 0)])
    (by decide)

/-- Instance of C20: a stream document with `rtp_sink` 5000 and `rtcp_sink`
999 stays within -1 .. 999. -/
theorem stream_create_capped_range_witness :
    ∃ s, redis_call_media_stream_create 0
        (int_fields [("media", 0), ("rtp_sink", 5000), ("rtcp_sink", 999)]) [] = some s
      ∧ (-1 ≤ s.rtp_sink ∧ s.rtp_sink ≤ 999)
      ∧ (-1 ≤ s.rtcp_sink ∧ s.rtcp_sink ≤ 999)
      ∧ (-1 ≤ s.rtcp_sibling ∧ s.rtcp_sibling ≤ 999) :=
  ⟨_, rfl, stream_create_capped_range 0
    (int_fields [("media", 0), ("rtp_sink", 5000), ("rtcp_sink", 999)]) [] _ rfl⟩

/-! ## Orphans and the aggregation of streams -/

theorem mem_flatten_by_key {α : Type} (f : α → Nat) (l : List α) (M : Nat) (x : α) :
    x ∈ ((List.range M).map (fun i => l.filter (fun y => decide (f y = i)))).flatten
      ↔ x ∈ l ∧ f x < M := by
  simp only [List.mem_flatten, List.mem_map, List.mem_range]
  constructor
  · rintro ⟨ys, ⟨i, hi, rfl⟩, hx⟩
    simp only [List.mem_filter, decide_eq_true_eq] at hx
    exact ⟨hx.1, by omega⟩
  · rintro ⟨hx, hlt⟩
    exact ⟨_, ⟨f x, hlt, rfl⟩, by simp [hx]⟩

theorem nodup_flatten_by_key {α : Type} (f : α → Nat) (l : List α) (hl : l.Nodup) :
    ∀ M : Nat,
      (((List.range M).map (fun i => l.filter (fun y => decide (f y = i)))).flatten).Nodup := by
  intro M
  induction M with
  | zero => simp
  | succ M ih =>
    rw [List.range_succ, List.map_append, List.flatten_append]
    simp only [List.map_cons, List.map_nil, List.flatten_cons, List.flatten_nil,
      List.append_nil]
    rw [List.nodup_append]
    refine ⟨ih, hl.filter _, ?_⟩
    intro x hx hx2
    have h1 := ((mem_flatten_by_key f l M x).mp hx).2
    simp only [List.mem_filter, decide_eq_true_eq] at hx2
    omega

theorem length_flatten_by_key {α : Type} (f : α → Nat) (l : List α) (M : Nat) :
    (((List.range M).map (fun i => l.filter (fun y => decide (f y = i)))).flatten).length
      = (l.filter (fun y => decide (f y < M))).length := by
  rw [List.length_flatten, List.map_map]
  have := sum_filter_range f (fun _ => 1) l M
  simp only [sum_map_one] at this
  exact this

theorem flat_streams_nodup (reader : JsonNode) (sfds : List redis_call_media_stream_fd_t)
    (fuel : Nat) (streams : List redis_call_media_stream_t)
    (h : seq_probe reader (str_sprintf "stream")
      (fun i v => redis_call_media_stream_create i v sfds) fuel 0 [] = some streams) :
    streams.Nodup := by
  have hmap := list_eq_map_range (streams.map (fun s => s.unique_id)) (fun i => i)
    (fun i x hx => by
      rw [List.getElem?_map] at hx
      cases hs : streams[i]? with
      | none => rw [hs] at hx; simp at hx
      | some s =>
        rw [hs] at hx
        simp only [Option.map_some', Option.some.injEq] at hx
        rw [← hx]
        exact (flat_streams_spec _ _ _ _ h i s hs).1)
  have hnd : (streams.map (fun s => s.unique_id)).Nodup := by
    rw [hmap]
    simpa using List.nodup_range _
  exact List.Nodup.of_map _ hnd

theorem call_media_streams_eq (reader : JsonNode) (tags : List redis_call_media_tag_t)
    (streams : List redis_call_media_stream_t) (fuel : Nat) (q : List redis_call_media_t)
    (h : seq_probe reader (str_sprintf "media") (media_entry reader tags streams) fuel 0 []
      = some q) :
    q.map (fun m => m.streams)
      = (List.range q.length).map
          (fun i => streams.filter (fun s => decide (s.media_unique_id = i))) := by
  have := list_eq_map_range (q.map (fun m => m.streams))
    (fun i => streams.filter (fun s => decide (s.media_unique_id = i)))
    (fun i x hx => by
      rw [List.getElem?_map] at hx
      cases hm : q[i]? with
      | none => rw [hm] at hx; simp at hx
      | some m =>
        rw [hm] at hx
        simp only [Option.map_some', Option.some.injEq] at hx
        rw [← hx]
        exact (call_media_spec _ _ _ _ _ h i m hm).2)
  rw [List.length_map] at this
  exact this

theorem flat_streams_source (reader : JsonNode) (sfds : List redis_call_media_stream_fd_t)
    (fuel : Nat) (streams : List redis_call_media_stream_t)
    (h : seq_probe reader (str_sprintf "stream")
      (fun i v => redis_call_media_stream_create i v sfds) fuel 0 [] = some streams)
    (i : Nat) (s : redis_call_media_stream_t) (hs : streams[i]? = some s) :
    ∃ v, json_reader_read_member reader (str_sprintf "stream" i) = some v
      ∧ s.unique_id = i
      ∧ 0 ≤ json_reader_get_ll v "media"
      ∧ s.media_unique_id = to_unsigned (json_reader_get_ll v "media") := by
  obtain ⟨_, _, h3⟩ := seq_probe_some_root _ _ _ _ _ h
  obtain ⟨v, hv1, hv2⟩ := h3 i s hs
  have hc := stream_create_some _ _ _ _ hv2
  refine ⟨v, hv1, hc.1, ?_⟩
  have h2 := hc.2.1
  unfold JSON_UPDATE_NUM_FIELD_IF_SET_OR_FAIL at h2
  simp only [ge_iff_le] at h2
  split at h2
  · rename_i hnn
    simp only [Option.some.injEq] at h2
    exact ⟨hnn, h2.symm⟩
  · simp at h2


theorem stream_fd_create_isSome (unique_id : Nat) (json : JsonNode)
    (h : 0 ≤ json_reader_get_ll json "stream") :
    (redis_call_media_stream_fd_create unique_id json).isSome := by
  unfold redis_call_media_stream_fd_create JSON_UPDATE_NUM_FIELD_IF_SET_OR_FAIL
  simp only [ge_iff_le, h, if_true]
  rfl

theorem stream_create_isSome (unique_id : Nat) (json : JsonNode)
    (sfds : List redis_call_media_stream_fd_t) (h : 0 ≤ json_reader_get_ll json "media") :
    (redis_call_media_stream_create unique_id json sfds).isSome := by
  unfold redis_call_media_stream_create JSON_UPDATE_NUM_FIELD_IF_SET_OR_FAIL
  simp only [ge_iff_le, h, if_true]
  rfl

theorem read_streams_succeeds (doc : JsonNode) (F S : Nat)
    (hF_absent : json_reader_read_member doc (str_sprintf "sfd" F) = none)
    (hF : ∀ i, i < F → ∃ v, json_reader_read_member doc (str_sprintf "sfd" i) = some v
      ∧ 0 ≤ json_reader_get_ll v "stream")
    (hS_absent : json_reader_read_member doc (str_sprintf "stream" S) = none)
    (hS : ∀ i, i < S → ∃ v, json_reader_read_member doc (str_sprintf "stream" i) = some v
      ∧ 0 ≤ json_reader_get_ll v "media") :
    ∃ streams, redis_call_read_streams doc = some streams ∧ streams.length = S := by
  have hFle : F ≤ doc.size := by
    apply present_le_size doc (str_sprintf "sfd") (str_sprintf_injective "sfd") F
    intro i hi
    obtain ⟨v, hv, _⟩ := hF i hi
    simp [hv]
  have hSle : S ≤ doc.size := by
    apply present_le_size doc (str_sprintf "stream") (str_sprintf_injective "stream") S
    intro i hi
    obtain ⟨v, hv, _⟩ := hS i hi
    simp [hv]
  obtain ⟨sfds, hsfds, _⟩ := seq_probe_succeeds doc (str_sprintf "sfd")
    redis_call_media_stream_fd_create (doc.size + 1) 0 [] F (by omega)
    (by simpa using hF_absent)
    (fun i hi => by
      obtain ⟨v, hv, hc⟩ := hF i hi
      exact ⟨v, by simpa using hv, by simpa using stream_fd_create_isSome _ v hc⟩)
  obtain ⟨streams, hstreams, hlen⟩ := seq_probe_succeeds doc (str_sprintf "stream")
    (fun i v => redis_call_media_stream_create i v sfds) (doc.size + 1) 0 [] S (by omega)
    (by simpa using hS_absent)
    (fun i hi => by
      obtain ⟨v, hv, hc⟩ := hS i hi
      exact ⟨v, by simpa using hv, by simpa using stream_create_isSome _ v sfds hc⟩)
  simp only [List.nil_append] at hsfds hstreams
  refine ⟨streams, ?_, hlen⟩
  unfold redis_call_read_streams
  rw [read_stream_fds_eq, hsfds]
  simp only []
  rw [read_streams_probe_eq, hstreams]

theorem create_live_of_media (callid : String) (doc : JsonNode)
    (tags : List redis_call_media_tag_t) (streams : List redis_call_media_stream_t) (M : Nat)
    (hjson : ∃ v, json_reader_read_member doc "json" = some v
      ∧ 0 ≤ json_reader_get_ll v "created")
    (htags : redis_call_read_tags doc = some tags)
    (hstreams : redis_call_read_streams doc = some streams)
    (habsent : json_reader_read_member doc (str_sprintf "media" M) = none)
    (hpresent : ∀ i, i < M → ∃ v a b recv send,
      json_reader_read_member doc (str_sprintf "media" i) = some v
      ∧ json_reader_get_node doc (str_sprintf "streams" i) = some a
      ∧ json_reader_get_node doc (str_sprintf "maps" i) = some b
      ∧ json_reader_get_node doc (str_sprintf "payload_types" i) = some recv
      ∧ json_reader_get_node doc (str_sprintf "payload_types_send" i) = some send
      ∧ (redis_call_media_create_tag v tags).isSome
      ∧ (redis_call_media_read_payloads recv).value.isSome
      ∧ (redis_call_media_read_payloads send).value.isSome) :
    ∃ callref call_media, redis_call_create callid doc = .ret (.ok callref)
      ∧ callref.media = .live call_media ∧ call_media.length = M := by
  have hk : M ≤ doc.size := by
    apply present_le_size doc (str_sprintf "media") (str_sprintf_injective "media") M
    intro i hi
    obtain ⟨v, _, _, _, _, hv, _⟩ := hpresent i hi
    simp [hv]
  obtain ⟨q, hq, hlen⟩ := seq_probe_succeeds doc (str_sprintf "media")
    (media_entry doc tags streams) (doc.size + 1) 0 [] M (by omega)
    (by simpa using habsent)
    (fun i hi => by
      obtain ⟨v, a, b, recv, send, hv, ha, hb, hr, hs, h1, h2, h3⟩ := hpresent i hi
      refine ⟨v, by simpa using hv, ?_⟩
      simp only [Nat.zero_add, media_entry, ha, hb, hr, hs]
      obtain ⟨m, hm⟩ := media_create_isSome i v tags streams a b recv send h1 h2 h3
      rw [hm]
      rfl)
  simp only [List.nil_append] at hq
  have hmedia : redis_call_read_media doc = .ret (.live q) := by
    unfold redis_call_read_media
    rw [htags, hstreams]
    simp only []
    rw [← read_media_probe_eq, value_eq_some] at hq
    rw [hq]
  obtain ⟨v, hv, hc⟩ := hjson
  obtain ⟨c, hcall⟩ := Option.isSome_iff_exists.mp (by
    unfold redis_call_create_from_metadata JSON_UPDATE_NUM_FIELD_IF_SET_OR_FAIL_ulong
    simp only [ge_iff_le, hc, if_true]
    rfl : (redis_call_create_from_metadata callid v).isSome)
  refine ⟨{ c with media := .live q }, q, ?_, rfl, hlen⟩
  unfold redis_call_create
  rw [hv]
  simp only []
  rw [hcall]
  simp only [hmedia]

/-- C21 (as amended): for every document that reconstructs into a call with a
media queue of `M` media, `redis_call_get_streams` has no stream twice and
holds exactly the streams built from the `stream-<i>` documents whose `media`
value, as stored in the `unsigned` field `media_unique_id` (the value modulo
2^32), is less than `M`, so that the per-media stream counts sum to the number
of those streams; and reconstruction succeeds whatever media the streams and
whatever streams the descriptors name, as long as the fields are present. -/
theorem orphans_dropped (callid : String) (doc : JsonNode) :
    (∀ callref call_media streams, redis_call_create callid doc = .ret (.ok callref) →
        callref.media = .live call_media → redis_call_read_streams doc = some streams →
        (∀ (i : Nat) (s : redis_call_media_stream_t), streams[i]? = some s →
          ∃ v, json_reader_read_member doc (str_sprintf "stream" i) = some v
            ∧ s.unique_id = i
            ∧ 0 ≤ json_reader_get_ll v "media"
            ∧ s.media_unique_id = to_unsigned (json_reader_get_ll v "media"))
        ∧ ∃ all_streams, redis_call_get_streams callref = some all_streams
            ∧ all_streams.Nodup
            ∧ (∀ s, s ∈ all_streams ↔ s ∈ streams ∧ s.media_unique_id < call_media.length)
            ∧ (call_media.map (fun m => m.streams.length)).sum = all_streams.length
            ∧ all_streams.length
                = (streams.filter
                    (fun s => decide (s.media_unique_id < call_media.length))).length)
    ∧ (∀ tags F S M,
        (∃ v, json_reader_read_member doc "json" = some v
          ∧ 0 ≤ json_reader_get_ll v "created") →
        redis_call_read_tags doc = some tags →
        json_reader_read_member doc (str_sprintf "sfd" F) = none →
        (∀ i, i < F → ∃ v, json_reader_read_member doc (str_sprintf "sfd" i) = some v
          ∧ 0 ≤ json_reader_get_ll v "stream") →
        json_reader_read_member doc (str_sprintf "stream" S) = none →
        (∀ i, i < S → ∃ v, json_reader_read_member doc (str_sprintf "stream" i) = some v
          ∧ 0 ≤ json_reader_get_ll v "media") →
        json_reader_read_member doc (str_sprintf "media" M) = none →
        (∀ i, i < M → ∃ v a b recv send,
          json_reader_read_member doc (str_sprintf "media" i) = some v
          ∧ json_reader_get_node doc (str_sprintf "streams" i) = some a
          ∧ json_reader_get_node doc (str_sprintf "maps" i) = some b
          ∧ json_reader_get_node doc (str_sprintf "payload_types" i) = some recv
          ∧ json_reader_get_node doc (str_sprintf "payload_types_send" i) = some send
          ∧ (redis_call_media_create_tag v tags).isSome
          ∧ (redis_call_media_read_payloads recv).value.isSome
          ∧ (redis_call_media_read_payloads send).value.isSome) →
        ∃ callref call_media, redis_call_create callid doc = .ret (.ok callref)
          ∧ callref.media = .live call_media ∧ call_media.length = M) := by
  constructor
  · intro callref call_media streams hcreate hlive hstreams
    have hmedia := (create_ok callid doc callref hcreate).1
    rw [hlive] at hmedia
    obtain ⟨tags, streams2, _, hstreams2, hprobe⟩ := read_media_live doc call_media hmedia
    rw [hstreams] at hstreams2
    simp only [Option.some.injEq] at hstreams2
    subst hstreams2
    obtain ⟨sfds, _, _, hflat⟩ := read_streams_some doc streams hstreams
    have hL := call_media_streams_eq _ _ _ _ _ hprobe
    refine ⟨fun i s hs => flat_streams_source _ _ _ _ hflat i s hs,
      (call_media.map (fun m => m.streams)).flatten, ?_, ?_, ?_, ?_, ?_⟩
    · unfold redis_call_get_streams
      rw [hlive]
      simp only []
      rw [get_streams_outer_spec _ _ _ (le_refl _)]
      simp
    · rw [hL]
      exact nodup_flatten_by_key _ _ (flat_streams_nodup _ _ _ _ hflat) _
    · intro s
      rw [hL]
      exact mem_flatten_by_key _ _ _ s
    · rw [List.length_flatten, List.map_map]
      rfl
    · rw [hL]
      exact length_flatten_by_key _ _ _
  · intro tags F S M hjson htags hF_absent hF hS_absent hS hM_absent hM
    obtain ⟨streams, hstreams, _⟩ := read_streams_succeeds doc F S hF_absent hF hS_absent hS
    exact create_live_of_media callid doc tags streams M hjson htags hstreams hM_absent hM

/-- C21 (as stated) fails: the media id of a stream is an `unsigned`.  With
one media, the stream of `stream-0`, whose `media` value 4294967296 is not less
than 1, is attached to media 0 and is in the result of
`redis_call_get_streams`. -/
theorem get_streams_media_id_wraps :
    json_reader_read_member doc_wide_media_id (str_sprintf "stream" 0)
        = some (int_fields [("media", 4294967296)])
      ∧ ∃ callref call_media, redis_call_create "call" doc_wide_media_id = .ret (.ok callref)
          ∧ callref.media = .live call_media
          ∧ call_media.length = 1
          ∧ (redis_call_get_streams callref).map
              (fun all_streams => all_streams.map (fun s => s.unique_id)) = some [0] :=
  ⟨rfl, _, _, rfl, rfl, rfl, rfl⟩

/-- Instance of C21 as amended: the document with an orphan stream and an
orphan descriptor reconstructs into a call with 1 media; of its 2 streams the
result of `redis_call_get_streams` holds, once, the one that names media 0. -/
theorem orphans_dropped_witness :
    (∃ callref call_media, redis_call_create "call" doc_orphans = .ret (.ok callref)
      ∧ callref.media = .live call_media ∧ call_media.length = 1)
    ∧ ∃ callref call_media streams all_streams,
        redis_call_create "call" doc_orphans = .ret (.ok callref)
        ∧ callref.media = .live call_media
        ∧ redis_call_read_streams doc_orphans = some streams
        ∧ streams.length = 2
        ∧ redis_call_get_streams callref = some all_streams
        ∧ all_streams.Nodup
        ∧ (∀ s, s ∈ all_streams ↔ s ∈ streams ∧ s.media_unique_id < call_media.length)
        ∧ all_streams.length = 1 := by
  constructor
  · exact (orphans_dropped "call" doc_orphans).2 [] 1 2 1 ⟨_, rfl, by decide⟩ rfl rfl
      (fun i hi => by
        interval_cases i
        exact ⟨_, rfl, by decide⟩)
      rfl
      (fun i hi => by
        interval_cases i
        · exact ⟨_, rfl, by decide⟩
        · exact ⟨_, rfl, by decide⟩)
      rfl
      (fun i hi => by
        interval_cases i
        exact ⟨_, _, _, _, _, rfl, rfl, rfl, rfl, rfl, rfl, rfl, rfl⟩)
  · obtain ⟨_, all_streams, h1, h2, h3, _, h5⟩ :=
      (orphans_dropped "call" doc_orphans).1 _ _ _ rfl rfl rfl
    exact ⟨_, _, _, all_streams, rfl, rfl, rfl, rfl, h1, h2, h3, h5.trans (by decide)⟩

end RedisJson
